import Mathlib

set_option autoImplicit false

/-!
Update reconciliation of `server/plugin.go`.

A shallow embedding of `(*Plugin).CheckForUpdate` together with the string and
semantic-version helpers it calls.  Go strings are Lean strings, the helpers work
on their character lists, `uint64` fields are naturals bounded by `2 ^ 64` where
they are parsed, and every call to the hosting API is recorded as an `Event`.
-/

namespace PluginUpdate

/-! ## Go `strings` helpers -/

namespace strings

/-- Character-list form of `strings.TrimPrefix`: drop `p` from the front of `s`
when `s` starts with `p`, otherwise return `s` unchanged. -/
def trimPrefixChars (p s : List Char) : List Char :=
  if p.isPrefixOf s then s.drop p.length else s

/-- Go `strings.TrimPrefix(s, p)`. -/
def TrimPrefix (s p : String) : String :=
  ⟨trimPrefixChars p.data s.data⟩

/-- Character-list form of `strings.Split` for a one-character separator: the
pieces between the separators, so the result has one more element than there are
separators (the empty string splits into one empty piece). -/
def splitChars (sep : Char) : List Char → List (List Char)
  | [] => [[]]
  | c :: cs =>
    if c = sep then [] :: splitChars sep cs
    else
      match splitChars sep cs with
      | [] => [[c]]
      | p :: ps => (c :: p) :: ps

/-- Go `strings.Split(s, sep)` for a one-character separator. -/
def Split (s : String) (sep : Char) : List String :=
  (splitChars sep s.data).map String.mk

/-- The text before and after the first occurrence of `sep`, when there is one
(`strings.IndexRune` followed by the two slices around the index). -/
def cutChars (sep : Char) : List Char → Option (List Char × List Char)
  | [] => none
  | c :: cs =>
    if c = sep then some ([], cs)
    else
      match cutChars sep cs with
      | none => none
      | some (a, b) => some (c :: a, b)

/-- Character-list form of `strings.Join(parts, sep)`. -/
def joinChars (sep : Char) : List (List Char) → List Char
  | [] => []
  | [p] => p
  | p :: q :: ps => p ++ sep :: joinChars sep (q :: ps)

end strings

/-! ## The semantic-version library -/

namespace semver

/-- Modelled from the spec: the digit alphabet of the semantic-version library
(`github.com/blang/semver`, imported by `plugin.go`, not under `src/`). -/
def numbers : List Char := "0123456789".data

/-- Modelled from the spec: letters and the hyphen, the non-digit characters a
prerelease or build identifier of the semantic-version library may contain. -/
def alphas : List Char := "abcdefghijklmnopqrstuvwxyzABCDEFGHIJKLMNOPQRSTUVWXYZ-".data

/-- Modelled from the spec: the identifier alphabet of the semantic-version
library, letters, hyphen and digits. -/
def alphanum : List Char := alphas ++ numbers

/-- Modelled from the spec: `containsOnly(s, set)` of the semantic-version
library, every character of `s` belongs to `set`. -/
def containsOnly (s set : List Char) : Bool :=
  s.all fun r => set.contains r

/-- Modelled from the spec: `hasLeadingZeroes(s)` of the semantic-version
library, `len(s) > 1 && s[0] == '0'`. -/
def hasLeadingZeroes (s : List Char) : Bool :=
  match s with
  | c :: _ :: _ => c == '0'
  | _ => false

/-- Modelled from the spec: value of a decimal digit character, used by
`ParseUint`. -/
def digitVal (c : Char) : Option Nat :=
  if numbers.contains c then some (c.toNat - 48) else none

/-- Modelled from the spec: character of a decimal digit, used by
`FormatUint`. -/
def digitChar (d : Nat) : Char :=
  numbers.getD d '0'

/-- Modelled from the spec: left-to-right accumulation of a decimal numeral, the
loop of `strconv.ParseUint`. -/
def parseDigits : Nat → List Char → Option Nat
  | acc, [] => some acc
  | acc, c :: cs =>
    match digitVal c with
    | none => none
    | some d => parseDigits (acc * 10 + d) cs

/-- Modelled from the spec: `strconv.ParseUint(s, 10, 64)` as the
semantic-version library calls it: fails on the empty string, on a non-digit and
on a value that does not fit in 64 bits. -/
def ParseUint (s : List Char) : Option Nat :=
  if s = [] then none
  else
    match parseDigits 0 s with
    | none => none
    | some n => if n < 2 ^ 64 then some n else none

/-- Modelled from the spec: decimal digits of `n`, most significant first, the
loop of `strconv.FormatUint`; `fuel` bounds the number of digits produced. -/
def formatDigits : Nat → Nat → List Char
  | 0, _ => []
  | fuel + 1, n =>
    if n < 10 then [digitChar n]
    else formatDigits fuel (n / 10) ++ [digitChar (n % 10)]

/-- Modelled from the spec: `strconv.FormatUint(n, 10)`. -/
def FormatUint (n : Nat) : List Char :=
  formatDigits (n + 1) n

/-- Modelled from the spec: a prerelease identifier of the semantic-version
library, numeric (`IsNum`, value in `VersionNum`) or alphanumeric (text in
`VersionStr`). -/
structure PRVersion where
  VersionStr : String
  VersionNum : Nat
  IsNum : Bool
  deriving DecidableEq

/-- Modelled from the spec: `NewPRVersion(s)` of the semantic-version library. -/
def NewPRVersion (s : List Char) : Option PRVersion :=
  if s = [] then none
  else if containsOnly s numbers then
    if hasLeadingZeroes s then none
    else
      match ParseUint s with
      | none => none
      | some num => some { VersionStr := "", VersionNum := num, IsNum := true }
  else if containsOnly s alphanum then
    some { VersionStr := ⟨s⟩, VersionNum := 0, IsNum := false }
  else none

/-- Modelled from the spec: precedence of two prerelease identifiers: a numeric
one is lower than an alphanumeric one, numeric ones compare by value and
alphanumeric ones lexically. -/
def PRVersion.Compare (v o : PRVersion) : Int :=
  if v.IsNum && !o.IsNum then -1
  else if !v.IsNum && o.IsNum then 1
  else if v.IsNum && o.IsNum then
    if v.VersionNum = o.VersionNum then 0
    else if v.VersionNum > o.VersionNum then 1
    else -1
  else
    if v.VersionStr = o.VersionStr then 0
    else if v.VersionStr > o.VersionStr then 1
    else -1

/-- Modelled from the spec: `PRVersion.String()`. -/
def PRVersion.chars (v : PRVersion) : List Char :=
  if v.IsNum then FormatUint v.VersionNum else v.VersionStr.data

/-- Modelled from the spec: the `Version` of the semantic-version library. -/
structure Version where
  Major : Nat
  Minor : Nat
  Patch : Nat
  Pre : List PRVersion
  Build : List String
  deriving DecidableEq

/-- Modelled from the spec: the identifier-by-identifier loop of
`Version.Compare` with its final length comparison: the first differing pair
decides, and a list that is a proper start of the other is lower. -/
def comparePre : List PRVersion → List PRVersion → Int
  | [], [] => 0
  | [], _ :: _ => -1
  | _ :: _, [] => 1
  | x :: xs, y :: ys =>
    if x.Compare y = 0 then comparePre xs ys
    else if x.Compare y = 1 then 1
    else -1

/-- Modelled from the spec: the prerelease part of `Version.Compare`: the quick
comparison when one of the versions has no prerelease (it is then the higher
one), otherwise the loop over the identifiers. -/
def comparePrerelease (vPre oPre : List PRVersion) : Int :=
  if vPre.length = 0 ∧ oPre.length = 0 then 0
  else if vPre.length = 0 ∧ oPre.length > 0 then 1
  else if vPre.length > 0 ∧ oPre.length = 0 then -1
  else comparePre vPre oPre

/-- Modelled from the spec: `Version.Compare` of the semantic-version library,
standard precedence: numeric comparison of major, minor and patch, then a
version without prerelease is higher than one with, then the prerelease
identifiers; build metadata is ignored. -/
def Version.Compare (v o : Version) : Int :=
  if v.Major ≠ o.Major then
    if v.Major > o.Major then 1 else -1
  else if v.Minor ≠ o.Minor then
    if v.Minor > o.Minor then 1 else -1
  else if v.Patch ≠ o.Patch then
    if v.Patch > o.Patch then 1 else -1
  else comparePrerelease v.Pre o.Pre

/-- Modelled from the spec: `v.LT(o)`, `v.Compare(o) == -1`. -/
def Version.LT (v o : Version) : Bool :=
  v.Compare o == -1

/-- Modelled from the spec: `v.LE(o)`, `v.Compare(o) <= 0`. -/
def Version.LE (v o : Version) : Bool :=
  decide (v.Compare o ≤ 0)

/-- Modelled from the spec: the characters of `Version.String()`. -/
def Version.chars (v : Version) : List Char :=
  FormatUint v.Major ++ '.' :: FormatUint v.Minor ++ '.' :: FormatUint v.Patch
    ++ (if v.Pre.length > 0 then '-' :: strings.joinChars '.' (v.Pre.map PRVersion.chars) else [])
    ++ (if v.Build.length > 0 then '+' :: strings.joinChars '.' (v.Build.map String.data) else [])

/-- Modelled from the spec: `Version.String()` of the semantic-version library:
`MAJOR.MINOR.PATCH`, then `-` and the dot-separated prerelease identifiers when
there are any, then `+` and the dot-separated build identifiers when there are
any. -/
def Version.toString (v : Version) : String :=
  ⟨v.chars⟩

/-- Modelled from the spec: the prerelease loop of `Parse`: every identifier goes
through `NewPRVersion`, and one malformed identifier fails the parse. -/
def parsePre : List (List Char) → Option (List PRVersion)
  | [] => some []
  | p :: ps =>
    match NewPRVersion p with
    | none => none
    | some pr =>
      match parsePre ps with
      | none => none
      | some prs => some (pr :: prs)

/-- Modelled from the spec: the build-metadata loop of `Parse`: every identifier
must be non-empty and alphanumeric. -/
def parseBuild : List (List Char) → Option (List String)
  | [] => some []
  | b :: bs =>
    if b = [] then none
    else if !containsOnly b alphanum then none
    else
      match parseBuild bs with
      | none => none
      | some rest => some (⟨b⟩ :: rest)

/-- Modelled from the spec: a numeric field of `Parse` (major, minor, patch):
digits only, no leading zero, 64 bits. -/
def parseNumber (s : List Char) : Option Nat :=
  if !containsOnly s numbers then none
  else if hasLeadingZeroes s then none
  else ParseUint s

/-- Modelled from the spec: the part of `s` before the first `sep` and the
dot-separated identifiers after it; without a `sep`, all of `s` and no identifier (the two
`strings.IndexRune` blocks of `Parse`). -/
def cutIdentifiers (sep : Char) (s : List Char) : List Char × List (List Char) :=
  match strings.cutChars sep s with
  | some (a, b) => (a, strings.splitChars '.' b)
  | none => (s, [])

/-- Modelled from the spec: `Parse` of the semantic-version library on the
characters of its argument. -/
def parseChars (s : List Char) : Option Version :=
  if s = [] then none
  else
    -- `strings.SplitN(s, ".", 3)` must give three parts
    match strings.cutChars '.' s with
    | none => none
    | some (majorStr, afterMajor) =>
      match strings.cutChars '.' afterMajor with
      | none => none
      | some (minorStr, patchAll) =>
        match parseNumber majorStr with
        | none => none
        | some major =>
          match parseNumber minorStr with
          | none => none
          | some minor =>
            let build := (cutIdentifiers '+' patchAll).2
            let patchStr := (cutIdentifiers '+' patchAll).1
            let prerelease := (cutIdentifiers '-' patchStr).2
            let patchStr := (cutIdentifiers '-' patchStr).1
            match parseNumber patchStr with
            | none => none
            | some patch =>
              match parsePre prerelease with
              | none => none
              | some pre =>
                match parseBuild build with
                | none => none
                | some bld =>
                  some { Major := major, Minor := minor, Patch := patch, Pre := pre, Build := bld }

/-- Modelled from the spec: `Parse(s)` of the semantic-version library:
`MAJOR.MINOR.PATCH[-prerelease][+build]` with numeric fields without leading
zeroes; `none` stands for the error `MustParse` panics with. -/
def Parse (s : String) : Option Version :=
  parseChars s.data

/-- A comparison function with values in `{-1, 0, 1}` that is antisymmetric and
transitive. -/
structure IsCompare {α : Type} (cmp : α → α → Int) : Prop where
  range : ∀ a b, cmp a b = -1 ∨ cmp a b = 0 ∨ cmp a b = 1
  swap : ∀ a b, cmp b a = - cmp a b
  trans : ∀ a b c, cmp a b ≤ 0 → cmp b c ≤ 0 → cmp a c ≤ 0

end semver

/-! ## Data of the hosting API -/

/-- A Go `error` value, kept as its message. -/
abbrev Error := String

/-- A dynamically typed manifest property (`interface{}`): a string, or a value
of any other dynamic type. -/
inductive PropValue where
  | str (s : String)
  | other
  deriving DecidableEq

/-- The fields of `model.Manifest` that `CheckForUpdate` reads. -/
structure Manifest where
  Id : String
  Name : String
  Version : String
  Props : List (String × PropValue)
  deriving DecidableEq

/-- The field of `model.User` that `CheckForUpdate` reads. -/
structure User where
  Id : String
  deriving DecidableEq

/-- The field of `model.Channel` that `CheckForUpdate` reads. -/
structure Channel where
  Id : String
  deriving DecidableEq

/-- The fields of `model.Post` that `CheckForUpdate` sets. -/
structure Post where
  UserId : String
  ChannelId : String
  Message : String
  deriving DecidableEq

/-- The field of `github.RepositoryRelease` that `CheckForUpdate` reads. -/
structure RepositoryRelease where
  TagName : Option String
  deriving DecidableEq

/-- `release.GetTagName()`: the tag, or the empty string when it is unset. -/
def RepositoryRelease.GetTagName (r : RepositoryRelease) : String :=
  match r.TagName with
  | some t => t
  | none => ""

/-- The plugin configuration; `CheckForUpdate` reads `Username`. -/
structure configuration where
  Username : String
  deriving DecidableEq

/-- The key-value store of the plugin API: the value last set for a key is the
one a lookup finds. -/
abbrev Store := List (String × String)

/-- The value stored under `key`, if any. -/
def Store.get (s : Store) (key : String) : Option String :=
  s.lookup key

/-- The store after `key` is set to `value`. -/
def Store.set (s : Store) (key value : String) : Store :=
  (key, value) :: s

/-- The answers of the external collaborators during one cycle.  The store
reads and writes act on the `Store` passed along; `KVGetError` and `KVSetError`
say for which arguments the store reports a failure. -/
structure API where
  GetUserByUsername : String → Except Error User
  GetPlugins : Except Error (List Manifest)
  GetLatestRelease : String → String → Except Error RepositoryRelease
  KVGetError : String → Option Error
  GetDirectChannel : String → String → Except Error Channel
  KVSetError : String → String → Option Error
  CreatePost : Post → Except Error Post

/-- `p.API.KVGet(key)`: the bytes stored under the key (`none` is `nil`), or the
store's error. -/
def API.KVGet (api : API) (store : Store) (key : String) : Except Error (Option String) :=
  match api.KVGetError key with
  | some appErr => .error appErr
  | none => .ok (store.get key)

/-- `p.API.KVSet(key, value)`: the store after the call and the error returned;
a failed write leaves the store as it was. -/
def API.KVSet (api : API) (store : Store) (key value : String) : Store × Option Error :=
  match api.KVSetError key value with
  | some appErr => (store, some appErr)
  | none => (store.set key value, none)

/-- The receiver of `CheckForUpdate`. -/
structure Plugin where
  API : API
  configuration : configuration
  BotUserID : String

/-- A call made to the hosting API or to the release source, with its
arguments. -/
inductive Event where
  | GetUserByUsername (name : String)
  | LogDebug (msg : String) (keyValuePairs : List String)
  | GetPlugins
  | GetLatestRelease (owner repo : String)
  | KVGet (key : String)
  | GetDirectChannel (userId1 userId2 : String)
  | KVSet (key value : String)
  | CreatePost (post : Post)
  deriving DecidableEq

/-- How one iteration of the loop over the manifests ends: `continue` or falling
off the end of the body (`next`), `return err` (`ret`), or a panic of
`semver.MustParse`. -/
inductive Flow where
  | next
  | ret (err : Error)
  | panic
  deriving DecidableEq

/-- Effect of one loop iteration. -/
structure Step where
  store : Store
  events : List Event
  flow : Flow
  deriving DecidableEq

/-- What a call of `CheckForUpdate` gives back: `nil`, an error, or a panic. -/
inductive Result where
  | nil
  | err (e : Error)
  | panic
  deriving DecidableEq

/-- Effect of one call of `CheckForUpdate`. -/
structure Run where
  store : Store
  events : List Event
  result : Result
  deriving DecidableEq

/-- The notifications sent: the posts of the `CreatePost` calls, in order. -/
def notifications (events : List Event) : List Post :=
  events.filterMap fun e =>
    match e with
    | .CreatePost post => some post
    | _ => none

/-- The state writes made: key and value of the `KVSet` calls, in order. -/
def stateWrites (events : List Event) : List (String × String) :=
  events.filterMap fun e =>
    match e with
    | .KVSet key value => some (key, value)
    | _ => none

/-! ## `CheckForUpdate` -/

/-- The checked type assertion `v.(string)` on a map lookup: the string and
`true`, or the zero value and `false` when the key is absent or holds a value of
another type. -/
def stringAssertion (v : Option PropValue) : String × Bool :=
  match v with
  | some (.str s) => (s, true)
  | _ => ("", false)

/-- The text of the notification, `fmt.Sprintf` with the format of line 140. -/
def postMessage (name version updateURL : String) : String :=
  name ++ " can be updates to Version " ++ version
    ++ ". [Press here to jump to the release](" ++ updateURL ++ ")"

/-- Lines 127 to 144 of the loop body: resolve the direct channel, set the
record, create the post. -/
def notify (p : Plugin) (notifiedUser : User) (store : Store) (manifest : Manifest)
    (repositoryURL tag : String) (newVersion : semver.Version) (events : List Event) : Step :=
  let events := events ++ [Event.LogDebug "we need to post an notification." ["id", manifest.Id],
    Event.GetDirectChannel p.BotUserID notifiedUser.Id]
  match p.API.GetDirectChannel p.BotUserID notifiedUser.Id with
  | .error appErr => ⟨store, events, .ret appErr⟩
  | .ok channel =>
    -- `_ = p.API.KVSet(...)`: the error of the write is dropped
    let store := (p.API.KVSet store manifest.Id newVersion.toString).1
    let updateURL := repositoryURL ++ "/releases/tag/" ++ tag
    let post : Post :=
      { UserId := p.BotUserID
        ChannelId := channel.Id
        Message := postMessage manifest.Name newVersion.toString updateURL }
    let events := events ++ [Event.KVSet manifest.Id newVersion.toString, Event.CreatePost post]
    match p.API.CreatePost post with
    | .error appErr => ⟨store, events, .ret appErr⟩
    | .ok _ => ⟨store, events, .next⟩

/-- Lines 115 to 144 of the loop body: read the record of the component, stop
when the release is not newer than it, otherwise notify. -/
def checkRecord (p : Plugin) (notifiedUser : User) (store : Store) (manifest : Manifest)
    (repositoryURL tag : String) (newVersion : semver.Version) (events : List Event) : Step :=
  let events := events ++ [Event.KVGet manifest.Id]
  match p.API.KVGet store manifest.Id with
  | .error appErr => ⟨store, events, .ret appErr⟩
  | .ok none => notify p notifiedUser store manifest repositoryURL tag newVersion events
  | .ok (some lastNotificationVersionBytes) =>
    match semver.Parse lastNotificationVersionBytes with
    | none => ⟨store, events, .panic⟩
    | some lastNotificationVersion =>
      if newVersion.LE lastNotificationVersion then
        ⟨store, events ++ [Event.LogDebug
          "no need to post an notification. We allready send one for this release."
          ["id", manifest.Id]], .next⟩
      else notify p notifiedUser store manifest repositoryURL tag newVersion events

/-- The body of `for _, manifest := range manifests` (lines 87 to 144). -/
def checkManifest (p : Plugin) (notifiedUser : User) (store : Store) (manifest : Manifest) :
    Step :=
  let events := [Event.LogDebug "checking for updates" ["id", manifest.Id]]
  let (repositoryURL, ok) := stringAssertion (manifest.Props.lookup "repository")
  if !ok || repositoryURL == "" then ⟨store, events, .next⟩
  else
    let strippedRepositoryURL := strings.TrimPrefix repositoryURL "https://"
    let strippedRepositoryURL := strings.TrimPrefix strippedRepositoryURL "github.com/"
    let tmp := strings.Split strippedRepositoryURL '/'
    match tmp with
    | [owner, repo] =>
      let events := events ++ [Event.GetLatestRelease owner repo]
      match p.API.GetLatestRelease owner repo with
      | .error err => ⟨store, events, .ret err⟩
      | .ok release =>
        let tag := release.GetTagName
        match semver.Parse manifest.Version with
        | none => ⟨store, events, .panic⟩
        | some currentVersion =>
          match semver.Parse (strings.TrimPrefix tag "v") with
          | none => ⟨store, events, .panic⟩
          | some newVersion =>
            if newVersion.LT currentVersion then
              ⟨store, events ++ [Event.LogDebug "no need to update." ["id", manifest.Id]], .next⟩
            else
              checkRecord p notifiedUser store manifest repositoryURL tag newVersion
                (events ++ [Event.LogDebug "need to update." ["id", manifest.Id]])
    | _ =>
      ⟨store, events, .ret ("failed to extract username and repository from URL "
        ++ repositoryURL)⟩

/-- The loop `for _, manifest := range manifests` followed by `return nil`: the
iterations run in inventory order on the store left by the one before, and the
first `return` or panic ends the call. -/
def forManifests (p : Plugin) (notifiedUser : User) : Store → List Manifest → Run
  | store, [] => ⟨store, [], .nil⟩
  | store, manifest :: manifests =>
    let step := checkManifest p notifiedUser store manifest
    match step.flow with
    | .next =>
      let rest := forManifests p notifiedUser step.store manifests
      ⟨rest.store, step.events ++ rest.events, rest.result⟩
    | .ret err => ⟨step.store, step.events, .err err⟩
    | .panic => ⟨step.store, step.events, .panic⟩

/-- One cycle, `(*Plugin).CheckForUpdate`, started on the given store. -/
def CheckForUpdate (p : Plugin) (store : Store) : Run :=
  let config := p.configuration
  if config.Username == "" then ⟨store, [], .err "you need to set a user"⟩
  else
    match p.API.GetUserByUsername config.Username with
    | .error err => ⟨store, [Event.GetUserByUsername config.Username], .err err⟩
    | .ok notifiedUser =>
      let events := [Event.GetUserByUsername config.Username,
        Event.LogDebug "checking for plugin updates" [], Event.GetPlugins]
      match p.API.GetPlugins with
      | .error appErr => ⟨store, events, .err appErr⟩
      | .ok manifests =>
        let loop := forManifests p notifiedUser store manifests
        ⟨loop.store, events ++ loop.events, loop.result⟩

/-! ## Predicates used in the statements -/

/-- The component reaches the record lookup of line 115: its repository property
is the non-empty string `repositoryURL`, the stripped reference splits into owner
and name, the lookup `latest` succeeds with tag `tag`, the declared version and
the tag both parse, the latter to `newVersion`, and `newVersion` is not lower
than the declared version. -/
def Pending (latest : String → String → Except Error RepositoryRelease) (manifest : Manifest)
    (repositoryURL tag : String) (newVersion : semver.Version) : Prop :=
  manifest.Props.lookup "repository" = some (.str repositoryURL) ∧ repositoryURL ≠ "" ∧
  ∃ owner repo release currentVersion,
    strings.Split (strings.TrimPrefix (strings.TrimPrefix repositoryURL "https://")
      "github.com/") '/' = [owner, repo] ∧
    latest owner repo = .ok release ∧ release.GetTagName = tag ∧
    semver.Parse manifest.Version = some currentVersion ∧
    semver.Parse (strings.TrimPrefix tag "v") = some newVersion ∧
    newVersion.LT currentVersion = false

/-- The store holds for `key` a record that parses to a version at least
`version`. -/
def RecordCovers (store : Store) (key : String) (version : semver.Version) : Prop :=
  ∃ bytes last, store.get key = some bytes ∧ semver.Parse bytes = some last ∧
    version.Compare last ≤ 0

/-- Every value the store holds for a key is a valid semantic version. -/
def Store.Valid (s : Store) : Prop :=
  ∀ key value, s.get key = some value → (semver.Parse value).isSome = true

/-- A record did not decrease: when there was a value before, there is one after,
both are semantic versions and the later one is not lower in precedence. -/
def RecordNotLower (before after : Option String) : Prop :=
  ∀ old, before = some old → ∃ new vo vn, after = some new ∧
    semver.Parse old = some vo ∧ semver.Parse new = some vn ∧ 0 ≤ vn.Compare vo

/-- A record stayed or advanced: when there was a value before, there is one
after, both are semantic versions, and the later one is the same text or strictly
higher in precedence. -/
def RecordAdvances (before after : Option String) : Prop :=
  ∀ old, before = some old → ∃ new vo vn, after = some new ∧
    semver.Parse old = some vo ∧ semver.Parse new = some vn ∧
    (new = old ∨ 0 < vn.Compare vo)

/-! ## Concrete collaborators for the examples -/

/-- A manifest with a repository property. -/
def exManifest (id version repository : String) : Manifest :=
  { Id := id, Name := id, Version := version, Props := [("repository", .str repository)] }

/-- Collaborators that all succeed: the recipient resolves, the inventory is
`manifests`, every repository has the latest release `tag`. -/
def exAPI (manifests : List Manifest) (tag : String) : API :=
  { GetUserByUsername := fun name => .ok ⟨"uid-" ++ name⟩
    GetPlugins := .ok manifests
    GetLatestRelease := fun _ _ => .ok ⟨some tag⟩
    KVGetError := fun _ => none
    GetDirectChannel := fun a b => .ok ⟨a ++ "__" ++ b⟩
    KVSetError := fun _ _ => none
    CreatePost := fun post => .ok post }

/-- The collaborators of `exAPI`, except that every store write fails. -/
def exAPIWriteFails (manifests : List Manifest) (tag : String) : API :=
  { exAPI manifests tag with KVSetError := fun _ _ => some "store write failed" }

/-- The collaborators of `exAPI`, except that every delivery fails. -/
def exAPIPostFails (manifests : List Manifest) (tag : String) : API :=
  { exAPI manifests tag with CreatePost := fun _ => .error "delivery failed" }

/-- The collaborators of `exAPI`, except that the recipient does not resolve. -/
def exAPINoUser (manifests : List Manifest) (tag : String) : API :=
  { exAPI manifests tag with GetUserByUsername := fun _ => .error "user not found" }

/-- The collaborators of `exAPI`, except that the release lookup fails for the
repository named `failing`. -/
def exAPILookupFails (manifests : List Manifest) (tag failing : String) : API :=
  { exAPI manifests tag with
    GetLatestRelease := fun _ repo =>
      if repo = failing then .error "lookup failed" else .ok ⟨some tag⟩ }

/-- A manifest without a repository property. -/
def exUntracked (id : String) : Manifest :=
  { Id := id, Name := id, Version := "1.0.0", Props := [] }

/-- A plugin with recipient `admin` over the given collaborators. -/
def exPlugin (api : API) : Plugin :=
  { API := api, configuration := ⟨"admin"⟩, BotUserID := "bot" }

end PluginUpdate

/-! ## Theorems -/

namespace PluginUpdate

/-! ## Order of versions -/

namespace semver

/-- A three-way comparison on a linear order is at most zero exactly for `≤`. -/
theorem ite_cmp_le_zero_iff {α : Type} [LinearOrder α] (a b : α)
    [Decidable (a = b)] [Decidable (b < a)] :
    (if a = b then (0 : Int) else if b < a then 1 else -1) ≤ 0 ↔ a ≤ b := by
  split_ifs with h1 h2
  · simp [h1]
  · simp [not_le.mpr h2]
  · simp [le_of_not_lt h2]

/-- Swapping the arguments of a three-way comparison negates it. -/
theorem ite_cmp_swap {α : Type} [LinearOrder α] (a b : α)
    [Decidable (a = b)] [Decidable (b < a)] [Decidable (b = a)] [Decidable (a < b)] :
    (if b = a then (0 : Int) else if a < b then 1 else -1)
      = - (if a = b then (0 : Int) else if b < a then 1 else -1) := by
  rcases lt_trichotomy a b with h | h | h
  · simp [h.ne, h.ne', h, not_lt.mpr h.le]
  · simp [h]
  · simp [h.ne, h.ne', h, not_lt.mpr h.le]

theorem PRVersion.Compare_range (v o : PRVersion) :
    v.Compare o = -1 ∨ v.Compare o = 0 ∨ v.Compare o = 1 := by
  unfold PRVersion.Compare
  split_ifs <;> simp

theorem PRVersion.Compare_swap (v o : PRVersion) : o.Compare v = - v.Compare o := by
  unfold PRVersion.Compare
  rcases hv : v.IsNum <;> rcases ho : o.IsNum <;> simp [-String.lt_iff_toList_lt]
  · exact ite_cmp_swap v.VersionStr o.VersionStr
  · exact ite_cmp_swap v.VersionNum o.VersionNum

theorem PRVersion.Compare_trans (a b c : PRVersion) (h1 : a.Compare b ≤ 0)
    (h2 : b.Compare c ≤ 0) : a.Compare c ≤ 0 := by
  unfold PRVersion.Compare at *
  rcases ha : a.IsNum <;> rcases hb : b.IsNum <;> rcases hc : c.IsNum <;>
    simp [ha, hb, hc, -String.lt_iff_toList_lt] at h1 h2 ⊢
  · rw [ite_cmp_le_zero_iff] at *
    exact le_trans h1 h2
  · rw [ite_cmp_le_zero_iff] at *
    exact le_trans h1 h2

theorem IsCompare.self {α : Type} {cmp : α → α → Int} (h : IsCompare cmp) (a : α) :
    cmp a a = 0 := by
  have := h.swap a a
  omega

theorem IsCompare.trans_lt {α : Type} {cmp : α → α → Int} (h : IsCompare cmp) (a b c : α)
    (h1 : cmp a b ≤ 0) (h2 : cmp b c < 0) : cmp a c < 0 := by
  by_contra hn
  have hca : cmp c a ≤ 0 := by have := h.swap a c; omega
  have hcb := h.trans c a b hca h1
  have := h.swap b c
  omega

theorem IsCompare.lt_trans {α : Type} {cmp : α → α → Int} (h : IsCompare cmp) (a b c : α)
    (h1 : cmp a b < 0) (h2 : cmp b c ≤ 0) : cmp a c < 0 := by
  by_contra hn
  have hca : cmp c a ≤ 0 := by have := h.swap a c; omega
  have hba := h.trans b c a h2 hca
  have := h.swap a b
  omega

theorem IsCompare.congr_zero {α : Type} {cmp : α → α → Int} (h : IsCompare cmp) (a b c : α)
    (h0 : cmp a b = 0) : cmp a c = cmp b c := by
  have hab : cmp a b ≤ 0 := by omega
  have hba : cmp b a ≤ 0 := by have := h.swap a b; omega
  rcases h.range b c with hbc | hbc | hbc
  · have := h.trans_lt a b c hab (by omega)
    rcases h.range a c with hac | hac | hac <;> omega
  · have h1 := h.trans a b c hab (by omega)
    have h2 := h.trans c b a (by have := h.swap b c; omega) hba
    have := h.swap a c
    omega
  · have hcb : cmp c b < 0 := by have := h.swap b c; omega
    have := h.lt_trans c b a hcb hba
    have := h.swap a c
    rcases h.range a c with hac | hac | hac <;> omega

theorem prCompare_isCompare : IsCompare PRVersion.Compare :=
  ⟨PRVersion.Compare_range, PRVersion.Compare_swap, PRVersion.Compare_trans⟩

theorem comparePre_range (xs ys : List PRVersion) :
    comparePre xs ys = -1 ∨ comparePre xs ys = 0 ∨ comparePre xs ys = 1 := by
  induction xs generalizing ys with
  | nil => cases ys <;> simp [comparePre]
  | cons x xs ih =>
    cases ys with
    | nil => simp [comparePre]
    | cons y ys =>
      simp only [comparePre]
      split_ifs
      · exact ih ys
      · simp
      · simp

theorem comparePre_swap (xs ys : List PRVersion) :
    comparePre ys xs = - comparePre xs ys := by
  induction xs generalizing ys with
  | nil => cases ys <;> simp [comparePre]
  | cons x xs ih =>
    cases ys with
    | nil => simp [comparePre]
    | cons y ys =>
      simp only [comparePre]
      have hs := PRVersion.Compare_swap x y
      rcases PRVersion.Compare_range x y with h | h | h
      · simp [h, hs]
      · simp [h, hs, ih ys]
      · simp [h, hs]

theorem comparePre_trans (xs ys zs : List PRVersion) (h1 : comparePre xs ys ≤ 0)
    (h2 : comparePre ys zs ≤ 0) : comparePre xs zs ≤ 0 := by
  induction xs generalizing ys zs with
  | nil => cases zs <;> simp [comparePre]
  | cons x xs ih =>
    cases ys with
    | nil => simp [comparePre] at h1
    | cons y ys =>
      cases zs with
      | nil => simp [comparePre] at h2
      | cons z zs =>
        simp only [comparePre] at h1 h2 ⊢
        rcases PRVersion.Compare_range x y with hxy | hxy | hxy
        · have hyz : y.Compare z ≤ 0 := by
            rcases PRVersion.Compare_range y z with h | h | h
            · omega
            · omega
            · simp [h] at h2
          have hxz := prCompare_isCompare.lt_trans x y z (by omega) hyz
          rcases PRVersion.Compare_range x z with h | h | h
          · simp [h]
          · omega
          · omega
        · rw [prCompare_isCompare.congr_zero x y z hxy]
          simp only [hxy, if_true] at h1
          rcases PRVersion.Compare_range y z with h | h | h
          · simp [h]
          · simp only [h, if_true] at h2 ⊢
            exact ih ys zs h1 h2
          · simp [h] at h2
        · simp [hxy] at h1

theorem comparePre_isCompare : IsCompare comparePre :=
  ⟨comparePre_range, comparePre_swap, comparePre_trans⟩

theorem comparePrerelease_isCompare : IsCompare comparePrerelease := by
  refine ⟨?_, ?_, ?_⟩
  · intro xs ys
    cases xs <;> cases ys <;> simp [comparePrerelease]
    exact comparePre_range _ _
  · intro xs ys
    cases xs <;> cases ys <;> simp [comparePrerelease]
    exact comparePre_swap _ _
  · intro xs ys zs h1 h2
    cases xs <;> cases ys <;> cases zs <;> simp [comparePrerelease] at h1 h2 ⊢
    exact comparePre_trans _ _ _ h1 h2

theorem IsCompare.comap {α β : Type} {cmp : β → β → Int} (h : IsCompare cmp) (f : α → β) :
    IsCompare (fun a b => cmp (f a) (f b)) :=
  ⟨fun _ _ => h.range _ _, fun _ _ => h.swap _ _, fun _ _ _ => h.trans _ _ _⟩

/-- Comparing a numeric field first and falling back on `cmp` when it is equal
is again a comparison. -/
theorem IsCompare.lex {α : Type} {cmp : α → α → Int} (h : IsCompare cmp) (f : α → Nat) :
    IsCompare (fun v o => if f v ≠ f o then (if f v > f o then 1 else -1) else cmp v o) := by
  refine ⟨?_, ?_, ?_⟩
  · intro v o
    dsimp only
    split_ifs
    · simp
    · simp
    · exact h.range v o
  · intro v o
    dsimp only
    have := h.swap v o
    split_ifs <;> omega
  · intro a b c h1 h2
    dsimp only at h1 h2 ⊢
    have := h.trans a b c
    split_ifs at h1 h2 ⊢ <;> omega

theorem versionCompare_isCompare : IsCompare Version.Compare := by
  have h := ((((comparePrerelease_isCompare.comap Version.Pre).lex Version.Patch).lex
    Version.Minor).lex Version.Major)
  have e : Version.Compare = _ := funext fun v => funext fun o => by
    unfold Version.Compare
    rfl
  rw [e]
  exact h

theorem Version.Compare_self (v : Version) : v.Compare v = 0 :=
  versionCompare_isCompare.self v

end semver

/-! ## Splitting and joining -/

namespace strings

theorem cutChars_eq (sep : Char) (s a b : List Char) (h : cutChars sep s = some (a, b)) :
    s = a ++ sep :: b := by
  induction s generalizing a with
  | nil => simp [cutChars] at h
  | cons c cs ih =>
    simp only [cutChars] at h
    split_ifs at h with hc
    · simp only [Option.some.injEq, Prod.mk.injEq] at h
      obtain ⟨rfl, rfl⟩ := h
      simp [hc]
    · cases hcut : cutChars sep cs with
      | none => simp [hcut] at h
      | some ab =>
        obtain ⟨a1, b1⟩ := ab
        simp only [hcut, Option.some.injEq, Prod.mk.injEq] at h
        obtain ⟨rfl, rfl⟩ := h
        simp [ih a1 hcut]

theorem splitChars_ne_nil (sep : Char) (s : List Char) : splitChars sep s ≠ [] := by
  cases s with
  | nil => simp [splitChars]
  | cons c cs =>
    simp only [splitChars]
    split_ifs
    · simp
    · split <;> simp

theorem joinChars_cons_cons (sep c : Char) (p : List Char) (ps : List (List Char)) :
    joinChars sep ((c :: p) :: ps) = c :: joinChars sep (p :: ps) := by
  cases ps <;> simp [joinChars]

theorem joinChars_splitChars (sep : Char) (s : List Char) :
    joinChars sep (splitChars sep s) = s := by
  induction s with
  | nil => simp [splitChars, joinChars]
  | cons c cs ih =>
    simp only [splitChars]
    split_ifs with hc
    · cases hs : splitChars sep cs with
      | nil => exact absurd hs (splitChars_ne_nil sep cs)
      | cons q qs =>
        rw [hs] at ih
        simp [joinChars, ih, hc]
    · cases hs : splitChars sep cs with
      | nil => exact absurd hs (splitChars_ne_nil sep cs)
      | cons q qs =>
        rw [hs] at ih
        simp only [joinChars_cons_cons, ih]

end strings

/-! ## Printing a parsed version -/

namespace semver

theorem digitVal_spec (c : Char) (d : Nat) (h : digitVal c = some d) :
    d < 10 ∧ digitChar d = c := by
  unfold digitVal at h
  split_ifs at h with hc
  simp only [Option.some.injEq] at h
  subst h
  simp only [numbers, List.contains_eq_any_beq, List.any_cons, List.any_nil, beq_iff_eq,
    Bool.or_false, Bool.or_eq_true, decide_eq_true_eq] at hc
  rcases hc with h | h | h | h | h | h | h | h | h | h <;> subst h <;> decide

theorem formatDigits_fuel (n : Nat) : ∀ f1 f2, n < f1 → n < f2 →
    formatDigits f1 n = formatDigits f2 n := by
  induction n using Nat.strong_induction_on with
  | _ n ih =>
    intro f1 f2 h1 h2
    cases f1 with
    | zero => omega
    | succ f1 =>
      cases f2 with
      | zero => omega
      | succ f2 =>
        simp only [formatDigits]
        split_ifs with hn
        · rfl
        · rw [ih (n / 10) (by omega) f1 f2 (by omega) (by omega)]

theorem FormatUint_lt_ten (n : Nat) (h : n < 10) : FormatUint n = [digitChar n] := by
  simp [FormatUint, formatDigits, h]

theorem FormatUint_step (a d : Nat) (ha : 0 < a) (hd : d < 10) :
    FormatUint (a * 10 + d) = FormatUint a ++ [digitChar d] := by
  have h1 : ¬ (a * 10 + d < 10) := by omega
  have h2 : (a * 10 + d) / 10 = a := by omega
  have h3 : (a * 10 + d) % 10 = d := by omega
  have e : formatDigits (a * 10 + d + 1) (a * 10 + d)
      = formatDigits (a * 10 + d) ((a * 10 + d) / 10) ++ [digitChar ((a * 10 + d) % 10)] := by
    conv_lhs => rw [formatDigits]
    rw [if_neg h1]
  unfold FormatUint
  rw [e, h2, h3, formatDigits_fuel a (a * 10 + d) (a + 1) (by omega) (by omega)]

theorem parseDigits_format (s : List Char) : ∀ acc n, 0 < acc → parseDigits acc s = some n →
    FormatUint n = FormatUint acc ++ s := by
  induction s with
  | nil =>
    intro acc n _ h
    simp only [parseDigits, Option.some.injEq] at h
    simp [h]
  | cons c cs ih =>
    intro acc n hacc h
    simp only [parseDigits] at h
    cases hd : digitVal c with
    | none => simp [hd] at h
    | some d =>
      simp only [hd] at h
      obtain ⟨hlt, hch⟩ := digitVal_spec c d hd
      rw [ih (acc * 10 + d) n (by omega) h, FormatUint_step acc d hacc hlt, hch]
      simp

theorem ParseUint_format (s : List Char) (n : Nat) (hz : hasLeadingZeroes s = false)
    (h : ParseUint s = some n) : FormatUint n = s := by
  unfold ParseUint at h
  split_ifs at h with hs
  cases hp : parseDigits 0 s with
  | none => simp [hp] at h
  | some m =>
    simp only [hp] at h
    split_ifs at h
    simp only [Option.some.injEq] at h
    subst h
    cases s with
    | nil => exact absurd rfl hs
    | cons c cs =>
      simp only [parseDigits] at hp
      cases hd : digitVal c with
      | none => simp [hd] at hp
      | some d =>
        simp only [hd, Nat.zero_mul, Nat.zero_add] at hp
        obtain ⟨hlt, hch⟩ := digitVal_spec c d hd
        rcases Nat.eq_zero_or_pos d with h0 | hpos
        · subst h0
          have hc0 : c = '0' := by rw [← hch]; rfl
          cases cs with
          | nil =>
            simp only [parseDigits, Option.some.injEq] at hp
            subst hp
            rw [hc0]
            rfl
          | cons c2 cs2 => simp [hasLeadingZeroes, hc0] at hz
        · rw [parseDigits_format cs d m hpos hp, FormatUint_lt_ten d hlt, hch]
          rfl

theorem parseNumber_format (s : List Char) (n : Nat) (h : parseNumber s = some n) :
    FormatUint n = s := by
  unfold parseNumber at h
  split_ifs at h with h1 h2
  exact ParseUint_format s n (by simpa using h2) h

theorem NewPRVersion_chars (s : List Char) (pr : PRVersion) (h : NewPRVersion s = some pr) :
    pr.chars = s := by
  unfold NewPRVersion at h
  split_ifs at h with h1 h2 h3 h4
  · cases hp : ParseUint s with
    | none => simp [hp] at h
    | some num =>
      simp only [hp, Option.some.injEq] at h
      subst h
      simp only [PRVersion.chars, if_true]
      exact ParseUint_format s num (by simpa using h3) hp
  · simp only [Option.some.injEq] at h
    subst h
    simp [PRVersion.chars]

theorem parsePre_chars (l : List (List Char)) : ∀ prs, parsePre l = some prs →
    prs.map PRVersion.chars = l := by
  induction l with
  | nil =>
    intro prs h
    simp only [parsePre, Option.some.injEq] at h
    simp [← h]
  | cons p ps ih =>
    intro prs h
    simp only [parsePre] at h
    cases h1 : NewPRVersion p with
    | none => simp [h1] at h
    | some pr =>
      cases h2 : parsePre ps with
      | none => simp [h1, h2] at h
      | some rest =>
        simp only [h1, h2, Option.some.injEq] at h
        subst h
        simp [NewPRVersion_chars p pr h1, ih rest h2]

theorem parseBuild_data (l : List (List Char)) : ∀ bs, parseBuild l = some bs →
    bs.map String.data = l := by
  induction l with
  | nil =>
    intro bs h
    simp only [parseBuild, Option.some.injEq] at h
    simp [← h]
  | cons b rest ih =>
    intro bs h
    simp only [parseBuild] at h
    split_ifs at h with h1 h2
    cases h3 : parseBuild rest with
    | none => simp [h3] at h
    | some tl =>
      simp only [h3, Option.some.injEq] at h
      subst h
      simp [ih tl h3]

theorem cutIdentifiers_eq (sep : Char) (s : List Char) :
    s = (cutIdentifiers sep s).1 ++
      (if (cutIdentifiers sep s).2.length > 0
        then sep :: strings.joinChars '.' (cutIdentifiers sep s).2 else []) := by
  unfold cutIdentifiers
  cases h : strings.cutChars sep s with
  | none => simp
  | some ab =>
    obtain ⟨a, b⟩ := ab
    have hne := strings.splitChars_ne_nil '.' b
    have hlen : (strings.splitChars '.' b).length > 0 := List.length_pos.mpr hne
    simp only [hlen, if_true, strings.joinChars_splitChars]
    exact strings.cutChars_eq sep s a b h

theorem parseChars_chars (s : List Char) (v : Version) (h : parseChars s = some v) :
    v.chars = s := by
  unfold parseChars at h
  split_ifs at h with hs
  cases h1 : strings.cutChars '.' s with
  | none => simp [h1] at h
  | some ab =>
    obtain ⟨majorStr, afterMajor⟩ := ab
    simp only [h1] at h
    cases h2 : strings.cutChars '.' afterMajor with
    | none => simp [h2] at h
    | some cd =>
      obtain ⟨minorStr, patchAll⟩ := cd
      simp only [h2] at h
      cases h3 : parseNumber majorStr with
      | none => simp [h3] at h
      | some major =>
        simp only [h3] at h
        cases h4 : parseNumber minorStr with
        | none => simp [h4] at h
        | some minor =>
          simp only [h4] at h
          cases h5 : parseNumber (cutIdentifiers '-' (cutIdentifiers '+' patchAll).1).1 with
          | none => simp [h5] at h
          | some patch =>
            simp only [h5] at h
            cases h6 : parsePre (cutIdentifiers '-' (cutIdentifiers '+' patchAll).1).2 with
            | none => simp [h6] at h
            | some pre =>
              simp only [h6] at h
              cases h7 : parseBuild (cutIdentifiers '+' patchAll).2 with
              | none => simp [h7] at h
              | some bld =>
                simp only [h7, Option.some.injEq] at h
                subst h
                have e1 := strings.cutChars_eq '.' s majorStr afterMajor h1
                have e2 := strings.cutChars_eq '.' afterMajor minorStr patchAll h2
                have e3 := cutIdentifiers_eq '+' patchAll
                have e4 := cutIdentifiers_eq '-' (cutIdentifiers '+' patchAll).1
                have e5 := parsePre_chars _ pre h6
                have e6 := parseBuild_data _ bld h7
                have l5 : pre.length = (cutIdentifiers '-' (cutIdentifiers '+' patchAll).1).2.length := by
                  rw [← e5, List.length_map]
                have l6 : bld.length = (cutIdentifiers '+' patchAll).2.length := by
                  rw [← e6, List.length_map]
                simp only [Version.chars, parseNumber_format _ _ h3, parseNumber_format _ _ h4,
                  parseNumber_format _ _ h5, e5, e6, l5, l6]
                rw [e1, e2]
                conv_rhs => rw [e3]
                conv_rhs => rw [e4]
                simp

/-- Printing a parsed version gives back the text that was parsed. -/
theorem Parse_toString (s : String) (v : Version) (h : Parse s = some v) : v.toString = s := by
  unfold Parse at h
  unfold Version.toString
  rw [parseChars_chars s.data v h]

/-- A version obtained by parsing is parsed back from its printed form. -/
theorem Parse_toString_Parse (s : String) (v : Version) (h : Parse s = some v) :
    Parse v.toString = some v := by
  rw [Parse_toString s v h, h]

end semver

/-! ## Events -/

@[simp] theorem notifications_nil : notifications [] = [] := rfl

@[simp] theorem stateWrites_nil : stateWrites [] = [] := rfl

@[simp] theorem notifications_append (a b : List Event) :
    notifications (a ++ b) = notifications a ++ notifications b := by
  simp [notifications, List.filterMap_append]

@[simp] theorem stateWrites_append (a b : List Event) :
    stateWrites (a ++ b) = stateWrites a ++ stateWrites b := by
  simp [stateWrites, List.filterMap_append]

@[simp] theorem notifications_cons (e : Event) (l : List Event) :
    notifications (e :: l) =
      (match e with
        | .CreatePost post => [post]
        | _ => []) ++ notifications l := by
  cases e <;> simp [notifications, List.filterMap_cons]

@[simp] theorem stateWrites_cons (e : Event) (l : List Event) :
    stateWrites (e :: l) =
      (match e with
        | .KVSet key value => [(key, value)]
        | _ => []) ++ stateWrites l := by
  cases e <;> simp [stateWrites, List.filterMap_cons]

/-! ## The steps of one iteration -/

/-- What `notify` does: without a channel nothing is written or posted; with a
channel the record is set and the post is created. -/
theorem notify_spec (p : Plugin) (u : User) (store : Store) (m : Manifest)
    (r t : String) (v : semver.Version) (events : List Event) :
    ((∃ err, p.API.GetDirectChannel p.BotUserID u.Id = .error err) ∧
      (notify p u store m r t v events).store = store ∧
      notifications (notify p u store m r t v events).events = notifications events ∧
      stateWrites (notify p u store m r t v events).events = stateWrites events ∧
      (notify p u store m r t v events).flow ≠ .next) ∨
    (∃ channel, p.API.GetDirectChannel p.BotUserID u.Id = .ok channel ∧
      (notify p u store m r t v events).store = (p.API.KVSet store m.Id v.toString).1 ∧
      notifications (notify p u store m r t v events).events = notifications events ++
        [⟨p.BotUserID, channel.Id, postMessage m.Name v.toString (r ++ "/releases/tag/" ++ t)⟩] ∧
      stateWrites (notify p u store m r t v events).events
        = stateWrites events ++ [(m.Id, v.toString)] ∧
      ((notify p u store m r t v events).flow = .next ↔
        ∃ created, p.API.CreatePost ⟨p.BotUserID, channel.Id,
          postMessage m.Name v.toString (r ++ "/releases/tag/" ++ t)⟩ = .ok created)) := by
  unfold notify
  cases hc : p.API.GetDirectChannel p.BotUserID u.Id with
  | error err =>
    left
    simp
  | ok channel =>
    right
    refine ⟨channel, rfl, ?_⟩
    cases hp : p.API.CreatePost ⟨p.BotUserID, channel.Id,
        postMessage m.Name v.toString (r ++ "/releases/tag/" ++ t)⟩ with
    | error err => simp [hp]
    | ok created => simp [hp]


/-- What `checkRecord` does: either nothing is written or posted (and when the
iteration continues, the record already covers the release), or the record
lookup succeeded, found no record or a lower one, and `notify` wrote and
posted. -/
theorem checkRecord_spec (p : Plugin) (u : User) (store : Store) (m : Manifest)
    (r t : String) (v : semver.Version) (events : List Event) :
    ((checkRecord p u store m r t v events).store = store ∧
      notifications (checkRecord p u store m r t v events).events = notifications events ∧
      stateWrites (checkRecord p u store m r t v events).events = stateWrites events ∧
      ((checkRecord p u store m r t v events).flow = .next → RecordCovers store m.Id v)) ∨
    (p.API.KVGetError m.Id = none ∧
      (store.get m.Id = none ∨ ∃ bytes last, store.get m.Id = some bytes ∧
        semver.Parse bytes = some last ∧ 0 < v.Compare last) ∧
      ∃ channel, p.API.GetDirectChannel p.BotUserID u.Id = .ok channel ∧
        (checkRecord p u store m r t v events).store = (p.API.KVSet store m.Id v.toString).1 ∧
        notifications (checkRecord p u store m r t v events).events = notifications events ++
          [⟨p.BotUserID, channel.Id, postMessage m.Name v.toString (r ++ "/releases/tag/" ++ t)⟩] ∧
        stateWrites (checkRecord p u store m r t v events).events
          = stateWrites events ++ [(m.Id, v.toString)] ∧
        ((checkRecord p u store m r t v events).flow = .next ↔
          ∃ created, p.API.CreatePost ⟨p.BotUserID, channel.Id,
            postMessage m.Name v.toString (r ++ "/releases/tag/" ++ t)⟩ = .ok created)) := by
  have hn := notify_spec p u store m r t v (events ++ [Event.KVGet m.Id])
  simp only [notifications_append, notifications_cons, notifications_nil, stateWrites_append,
    stateWrites_cons, stateWrites_nil, List.append_nil] at hn
  cases hget : p.API.KVGetError m.Id with
  | some appErr =>
    left
    simp [checkRecord, API.KVGet, hget]
  | none =>
    cases hrec : store.get m.Id with
    | none =>
      have heq : checkRecord p u store m r t v events
          = notify p u store m r t v (events ++ [Event.KVGet m.Id]) := by
        simp [checkRecord, API.KVGet, hget, hrec]
      rw [heq]
      rcases hn with ⟨_, h1, h2, h3, h4⟩ | ⟨channel, h1, h2, h3, h4, h5⟩
      · exact Or.inl ⟨h1, h2, h3, fun h => absurd h h4⟩
      · exact Or.inr ⟨rfl, Or.inl rfl, channel, h1, h2, h3, h4, h5⟩
    | some bytes =>
      cases hparse : semver.Parse bytes with
      | none =>
        left
        simp [checkRecord, API.KVGet, hget, hrec, hparse]
      | some last =>
        by_cases hle : v.LE last = true
        · left
          have hcov : RecordCovers store m.Id v :=
            ⟨bytes, last, hrec, hparse, by simpa [semver.Version.LE] using hle⟩
          simp [checkRecord, API.KVGet, hget, hrec, hparse, hle, hcov]
        · have hlt : 0 < v.Compare last := by
            simpa [semver.Version.LE] using hle
          have heq : checkRecord p u store m r t v events
              = notify p u store m r t v (events ++ [Event.KVGet m.Id]) := by
            simp [checkRecord, API.KVGet, hget, hrec, hparse, hle]
          rw [heq]
          rcases hn with ⟨_, h1, h2, h3, h4⟩ | ⟨channel, h1, h2, h3, h4, h5⟩
          · exact Or.inl ⟨h1, h2, h3, fun h => absurd h h4⟩
          · exact Or.inr ⟨rfl, Or.inr ⟨bytes, last, rfl, hparse, hlt⟩, channel, h1, h2, h3,
              h4, h5⟩

/-- The two ways an iteration can go: it stops before the record lookup, having
written and posted nothing, or it reaches the lookup and continues as
`checkRecord`. -/
theorem checkManifest_cases (p : Plugin) (u : User) (store : Store) (m : Manifest) :
    ((¬ ∃ r t v, Pending p.API.GetLatestRelease m r t v) ∧
      (checkManifest p u store m).store = store ∧
      notifications (checkManifest p u store m).events = [] ∧
      stateWrites (checkManifest p u store m).events = []) ∨
    (∃ r t v events, Pending p.API.GetLatestRelease m r t v ∧
      notifications events = [] ∧ stateWrites events = [] ∧
      checkManifest p u store m = checkRecord p u store m r t v events) := by
  unfold checkManifest
  rcases hprop : m.Props.lookup "repository" with _ | (r | _)
  · left
    simp [stringAssertion, Pending, hprop]
  · by_cases hr : r = ""
    · left
      simp [stringAssertion, Pending, hprop, hr]
    · simp only [stringAssertion, Bool.not_true, Bool.false_or, beq_iff_eq, hr, if_false]
      split
      next owner repo hsplit =>
        cases hrel : p.API.GetLatestRelease owner repo with
        | error err =>
          left
          simp only [hrel, notifications_append, notifications_cons, notifications_nil,
            stateWrites_append, stateWrites_cons, stateWrites_nil, List.append_nil, and_true,
            true_and]
          rintro ⟨r2, t2, v2, h1, _, o2, rp2, rel2, c2, h3, h4, _⟩
          rw [hprop] at h1
          simp only [Option.some.injEq, PropValue.str.injEq] at h1
          subst h1
          rw [hsplit] at h3
          simp only [List.cons.injEq, and_true] at h3
          obtain ⟨rfl, rfl⟩ := h3
          rw [hrel] at h4
          cases h4
        | ok release =>
          simp only [hrel]
          cases hcur : semver.Parse m.Version with
          | none =>
            left
            simp only [notifications_append, notifications_cons, notifications_nil,
              stateWrites_append, stateWrites_cons, stateWrites_nil, List.append_nil, and_true,
              true_and]
            rintro ⟨r2, t2, v2, _, _, o2, rp2, rel2, c2, _, _, _, h5, _⟩
            rw [hcur] at h5
            cases h5
          | some currentVersion =>
            cases hnew : semver.Parse (strings.TrimPrefix release.GetTagName "v") with
            | none =>
              left
              simp only [notifications_append, notifications_cons, notifications_nil,
                stateWrites_append, stateWrites_cons, stateWrites_nil, List.append_nil, and_true,
                true_and]
              rintro ⟨r2, t2, v2, h1, _, o2, rp2, rel2, c2, h3, h4, h5, _, h6, _⟩
              rw [hprop] at h1
              simp only [Option.some.injEq, PropValue.str.injEq] at h1
              subst h1
              rw [hsplit] at h3
              simp only [List.cons.injEq, and_true] at h3
              obtain ⟨rfl, rfl⟩ := h3
              rw [hrel] at h4
              cases h4
              rw [← h5, hnew] at h6
              cases h6
            | some newVersion =>
              by_cases hlt : newVersion.LT currentVersion = true
              · left
                simp only [hlt, if_true, notifications_append, notifications_cons,
                  notifications_nil, stateWrites_append, stateWrites_cons, stateWrites_nil,
                  List.append_nil, and_true, true_and]
                rintro ⟨r2, t2, v2, h1, _, o2, rp2, rel2, c2, h3, h4, h5, h7, h6, h8⟩
                rw [hprop] at h1
                simp only [Option.some.injEq, PropValue.str.injEq] at h1
                subst h1
                rw [hsplit] at h3
                simp only [List.cons.injEq, and_true] at h3
                obtain ⟨rfl, rfl⟩ := h3
                rw [hrel] at h4
                cases h4
                rw [← h5, hnew] at h6
                cases h6
                rw [hcur] at h7
                cases h7
                rw [hlt] at h8
                cases h8
              · right
                refine ⟨r, release.GetTagName, newVersion,
                  [Event.LogDebug "checking for updates" ["id", m.Id]]
                    ++ [Event.GetLatestRelease owner repo]
                    ++ [Event.LogDebug "need to update." ["id", m.Id]], ?_, ?_, ?_, ?_⟩
                rotate_left 3
                · simp only [hlt]
                  rfl
                · exact ⟨hprop, hr, owner, repo, release, currentVersion, hsplit, hrel, rfl,
                    hcur, hnew, by simpa using hlt⟩
                · simp
                · simp
      next hno =>
        left
        simp only [notifications_cons, notifications_nil, stateWrites_cons, stateWrites_nil,
          List.append_nil, and_true, true_and]
        rintro ⟨r2, t2, v2, h1, _, o2, rp2, rel2, c2, h3, _⟩
        rw [hprop] at h1
        simp only [Option.some.injEq, PropValue.str.injEq] at h1
        subst h1
        exact hno o2 rp2 h3
  · left
    simp [stringAssertion, Pending, hprop]


/-! ## The store -/

theorem Store.get_set (s : Store) (k v k2 : String) :
    (s.set k v).get k2 = if k2 = k then some v else s.get k2 := by
  simp only [Store.get, Store.set, List.lookup_cons]
  by_cases h : k2 = k
  · simp [h]
  · have hb : (k2 == k) = false := by simpa using h
    simp [h, hb]

theorem Store.Valid.parse {s : Store} (hs : s.Valid) (k v : String) (h : s.get k = some v) :
    ∃ ver, semver.Parse v = some ver :=
  Option.isSome_iff_exists.mp (hs k v h)

theorem Store.Valid.set {s : Store} (hs : s.Valid) (k v : String) (ver : semver.Version)
    (h : semver.Parse v = some ver) : (s.set k v).Valid := by
  intro key value hget
  rw [Store.get_set] at hget
  split_ifs at hget with hk
  · simp only [Option.some.injEq] at hget
    subst hget
    simp [h]
  · exact hs key value hget

theorem API.KVSet_store (api : API) (store : Store) (k v : String) :
    (api.KVSet store k v).1 = store ∨
      (api.KVSetError k v = none ∧ (api.KVSet store k v).1 = store.set k v) := by
  unfold API.KVSet
  cases api.KVSetError k v <;> simp

theorem API.KVSet_ok (api : API) (store : Store) (k v : String) (h : api.KVSetError k v = none) :
    (api.KVSet store k v).1 = store.set k v := by
  simp [API.KVSet, h]

/-! ## One iteration -/

theorem Pending.unique {latest : String → String → Except Error RepositoryRelease}
    {m : Manifest} {r t r2 t2 : String} {v v2 : semver.Version}
    (h : Pending latest m r t v) (h2 : Pending latest m r2 t2 v2) :
    r = r2 ∧ t = t2 ∧ v = v2 := by
  obtain ⟨a1, _, o, rp, rel, c, a3, a4, a5, _, a7, _⟩ := h
  obtain ⟨b1, _, o2, rp2, rel2, c2, b3, b4, b5, _, b7, _⟩ := h2
  rw [a1] at b1
  simp only [Option.some.injEq, PropValue.str.injEq] at b1
  subst b1
  rw [a3] at b3
  simp only [List.cons.injEq, and_true] at b3
  obtain ⟨rfl, rfl⟩ := b3
  rw [a4] at b4
  cases b4
  rw [a5] at b5
  subst b5
  rw [a7] at b7
  cases b7
  exact ⟨rfl, rfl, rfl⟩

/-- Summary of one iteration: either it writes and posts nothing (and, when the
loop continues, the record already covers the pending release), or it reached the
record lookup, found no record or a lower one, and wrote and posted once. -/
theorem checkManifest_step (p : Plugin) (u : User) (store : Store) (m : Manifest) :
    ((checkManifest p u store m).store = store ∧
      notifications (checkManifest p u store m).events = [] ∧
      stateWrites (checkManifest p u store m).events = [] ∧
      ((checkManifest p u store m).flow = .next → ∀ r t v,
        Pending p.API.GetLatestRelease m r t v → RecordCovers store m.Id v)) ∨
    (∃ r t v channel, Pending p.API.GetLatestRelease m r t v ∧
      p.API.KVGetError m.Id = none ∧
      (store.get m.Id = none ∨ ∃ bytes last, store.get m.Id = some bytes ∧
        semver.Parse bytes = some last ∧ 0 < v.Compare last) ∧
      p.API.GetDirectChannel p.BotUserID u.Id = .ok channel ∧
      (checkManifest p u store m).store = (p.API.KVSet store m.Id v.toString).1 ∧
      notifications (checkManifest p u store m).events =
        [⟨p.BotUserID, channel.Id, postMessage m.Name v.toString (r ++ "/releases/tag/" ++ t)⟩] ∧
      stateWrites (checkManifest p u store m).events = [(m.Id, v.toString)] ∧
      ((checkManifest p u store m).flow = .next ↔
        ∃ created, p.API.CreatePost ⟨p.BotUserID, channel.Id,
          postMessage m.Name v.toString (r ++ "/releases/tag/" ++ t)⟩ = .ok created)) := by
  rcases checkManifest_cases p u store m with ⟨hno, h1, h2, h3⟩ | ⟨r, t, v, events, hp, e1, e2, heq⟩
  · exact Or.inl ⟨h1, h2, h3, fun _ r t v hp => absurd ⟨r, t, v, hp⟩ hno⟩
  · rw [heq]
    rcases checkRecord_spec p u store m r t v events with
      ⟨h1, h2, h3, h4⟩ | ⟨hget, hrec, channel, hch, h1, h2, h3, h4⟩
    · left
      refine ⟨h1, by rw [h2, e1], by rw [h3, e2], ?_⟩
      intro hflow r2 t2 v2 hp2
      obtain ⟨_, _, rfl⟩ := hp.unique hp2
      exact h4 hflow
    · right
      refine ⟨r, t, v, channel, hp, hget, hrec, hch, h1, ?_, ?_, h4⟩
      · rw [h2, e1]
        rfl
      · rw [h3, e2]
        rfl

/-- A record that covers a version still covers it after any iteration. -/
theorem RecordCovers.step {store : Store} {key : String} {v0 : semver.Version}
    (h : RecordCovers store key v0) (p : Plugin) (u : User) (m : Manifest) :
    RecordCovers (checkManifest p u store m).store key v0 := by
  rcases checkManifest_step p u store m with ⟨h1, _⟩ |
    ⟨r, t, v, channel, hp, _, hrec, _, hst, _⟩
  · rw [h1]
    exact h
  · rw [hst]
    rcases p.API.KVSet_store store m.Id v.toString with hs | ⟨_, hs⟩
    · rw [hs]
      exact h
    · rw [hs]
      obtain ⟨bytes, last, hb, hl, hle⟩ := h
      by_cases hk : key = m.Id
      · subst hk
        obtain ⟨_, _, _, _, _, _, _, _, _, _, hnew, _⟩ := hp
        refine ⟨v.toString, v, by simp [Store.get_set], semver.Parse_toString_Parse _ v hnew, ?_⟩
        rcases hrec with hnone | ⟨bytes2, last2, hb2, hl2, hlt⟩
        · rw [hnone] at hb
          cases hb
        · rw [hb] at hb2
          cases hb2
          rw [hl] at hl2
          cases hl2
          have hsw := semver.versionCompare_isCompare.swap v last
          have := semver.versionCompare_isCompare.trans_lt v0 last v hle (by omega)
          omega
      · exact ⟨bytes, last, by simp [Store.get_set, hk, hb], hl, hle⟩

/-! ## The loop -/

theorem forManifests_cons_next (p : Plugin) (u : User) (store : Store) (m : Manifest)
    (rest : List Manifest) (h : (checkManifest p u store m).flow = .next) :
    forManifests p u store (m :: rest) =
      ⟨(forManifests p u (checkManifest p u store m).store rest).store,
        (checkManifest p u store m).events
          ++ (forManifests p u (checkManifest p u store m).store rest).events,
        (forManifests p u (checkManifest p u store m).store rest).result⟩ := by
  simp [forManifests, h]

theorem forManifests_cons_ret (p : Plugin) (u : User) (store : Store) (m : Manifest)
    (rest : List Manifest) (err : Error) (h : (checkManifest p u store m).flow = .ret err) :
    forManifests p u store (m :: rest) =
      ⟨(checkManifest p u store m).store, (checkManifest p u store m).events, .err err⟩ := by
  simp [forManifests, h]

theorem forManifests_cons_panic (p : Plugin) (u : User) (store : Store) (m : Manifest)
    (rest : List Manifest) (h : (checkManifest p u store m).flow = .panic) :
    forManifests p u store (m :: rest) =
      ⟨(checkManifest p u store m).store, (checkManifest p u store m).events, .panic⟩ := by
  simp [forManifests, h]

/-- The loop over `pre ++ rest` when the loop over `pre` runs to its end. -/
theorem forManifests_append (p : Plugin) (u : User) (pre rest : List Manifest) :
    ∀ store, (forManifests p u store pre).result = .nil →
      forManifests p u store (pre ++ rest) =
        ⟨(forManifests p u (forManifests p u store pre).store rest).store,
          (forManifests p u store pre).events
            ++ (forManifests p u (forManifests p u store pre).store rest).events,
          (forManifests p u (forManifests p u store pre).store rest).result⟩ := by
  induction pre with
  | nil =>
    intro store _
    simp [forManifests]
  | cons m ms ih =>
    intro store h
    cases hf : (checkManifest p u store m).flow with
    | next =>
      rw [forManifests_cons_next p u store m ms hf] at h ⊢
      rw [List.cons_append, forManifests_cons_next p u store m (ms ++ rest) hf]
      rw [ih _ h]
      simp
    | ret err =>
      rw [forManifests_cons_ret p u store m ms err hf] at h
      cases h
    | panic =>
      rw [forManifests_cons_panic p u store m ms hf] at h
      cases h

theorem RecordCovers.loop {key : String} {v0 : semver.Version} (p : Plugin) (u : User)
    (ms : List Manifest) : ∀ store, RecordCovers store key v0 →
      RecordCovers (forManifests p u store ms).store key v0 := by
  induction ms with
  | nil =>
    intro store h
    simpa [forManifests] using h
  | cons m ms ih =>
    intro store h
    have hs := h.step p u m
    cases hf : (checkManifest p u store m).flow with
    | next =>
      rw [forManifests_cons_next p u store m ms hf]
      exact ih _ hs
    | ret err =>
      rw [forManifests_cons_ret p u store m ms err hf]
      exact hs
    | panic =>
      rw [forManifests_cons_panic p u store m ms hf]
      exact hs


/-! ## Monotonicity of the records -/

theorem RecordAdvances.refl {s : Store} (hs : s.Valid) (key : String) :
    RecordAdvances (s.get key) (s.get key) := by
  intro old hold
  obtain ⟨vo, hvo⟩ := hs.parse key old hold
  exact ⟨old, vo, vo, hold, hvo, hvo, Or.inl rfl⟩

theorem RecordAdvances.trans {a b c : Option String} (h1 : RecordAdvances a b)
    (h2 : RecordAdvances b c) : RecordAdvances a c := by
  intro old hold
  obtain ⟨mid, vo, vm, hb, hpo, hpm, hcase1⟩ := h1 old hold
  obtain ⟨new, vm2, vn, hc, hpm2, hpn, hcase2⟩ := h2 mid hb
  rw [hpm] at hpm2
  cases hpm2
  refine ⟨new, vo, vn, hc, hpo, hpn, ?_⟩
  rcases hcase1 with e1 | s1
  · subst e1
    rw [hpo] at hpm
    cases hpm
    exact hcase2
  · rcases hcase2 with e2 | s2
    · subst e2
      rw [hpm] at hpn
      cases hpn
      exact Or.inr s1
    · right
      have w1 := semver.versionCompare_isCompare.swap vm vo
      have w2 := semver.versionCompare_isCompare.swap vn vm
      have w3 := semver.versionCompare_isCompare.swap vn vo
      have := semver.versionCompare_isCompare.trans_lt vo vm vn (by omega) (by omega)
      omega

theorem RecordAdvances.notLower {a b : Option String} (h : RecordAdvances a b) :
    RecordNotLower a b := by
  intro old hold
  obtain ⟨new, vo, vn, hb, hpo, hpn, hcase⟩ := h old hold
  refine ⟨new, vo, vn, hb, hpo, hpn, ?_⟩
  rcases hcase with e | s
  · subst e
    rw [hpo] at hpn
    cases hpn
    rw [semver.Version.Compare_self]
  · omega

/-- One iteration keeps the store valid and lets every record stay or advance. -/
theorem checkManifest_advances (p : Plugin) (u : User) (store : Store) (m : Manifest)
    (hs : store.Valid) :
    (checkManifest p u store m).store.Valid ∧
      ∀ key, RecordAdvances (store.get key) ((checkManifest p u store m).store.get key) := by
  rcases checkManifest_step p u store m with ⟨h1, _⟩ |
    ⟨r, t, v, channel, hp, _, hrec, _, hst, _⟩
  · rw [h1]
    exact ⟨hs, fun key => RecordAdvances.refl hs key⟩
  · rw [hst]
    rcases p.API.KVSet_store store m.Id v.toString with e | ⟨_, e⟩
    · rw [e]
      exact ⟨hs, fun key => RecordAdvances.refl hs key⟩
    · rw [e]
      obtain ⟨_, _, _, _, _, _, _, _, _, _, hnew, _⟩ := hp
      have hpv := semver.Parse_toString_Parse _ v hnew
      refine ⟨hs.set m.Id v.toString v hpv, ?_⟩
      intro key old hold
      by_cases hk : key = m.Id
      · subst hk
        rcases hrec with hnone | ⟨bytes, last, hb, hl, hlt⟩
        · rw [hnone] at hold
          cases hold
        · rw [hb] at hold
          cases hold
          exact ⟨v.toString, last, v, by simp [Store.get_set], hl, hpv, Or.inr hlt⟩
      · obtain ⟨vo, hvo⟩ := hs.parse key old hold
        exact ⟨old, vo, vo, by simp [Store.get_set, hk, hold], hvo, hvo, Or.inl rfl⟩

/-- A record written by an iteration is strictly higher than the one it
replaces. -/
theorem checkManifest_write_strict (p : Plugin) (u : User) (store : Store) (m : Manifest)
    (key value old : String)
    (hw : (key, value) ∈ stateWrites (checkManifest p u store m).events)
    (hold : store.get key = some old) :
    ∃ vo vn, semver.Parse old = some vo ∧ semver.Parse value = some vn ∧
      0 < vn.Compare vo := by
  rcases checkManifest_step p u store m with ⟨_, _, h3, _⟩ |
    ⟨r, t, v, channel, hp, _, hrec, _, _, _, hsw, _⟩
  · rw [h3] at hw
    cases hw
  · rw [hsw] at hw
    simp only [List.mem_singleton, Prod.mk.injEq] at hw
    obtain ⟨rfl, rfl⟩ := hw
    obtain ⟨_, _, _, _, _, _, _, _, _, _, hnew, _⟩ := hp
    rcases hrec with hnone | ⟨bytes, last, hb, hl, hlt⟩
    · rw [hnone] at hold
      cases hold
    · rw [hb] at hold
      cases hold
      exact ⟨last, v, hl, semver.Parse_toString_Parse _ v hnew, hlt⟩

theorem forManifests_advances (p : Plugin) (u : User) (ms : List Manifest) :
    ∀ store : Store, store.Valid →
      (forManifests p u store ms).store.Valid ∧
        ∀ key, RecordAdvances (store.get key) ((forManifests p u store ms).store.get key) := by
  induction ms with
  | nil =>
    intro store hs
    exact ⟨hs, fun key => RecordAdvances.refl hs key⟩
  | cons m ms ih =>
    intro store hs
    obtain ⟨hv, hadv⟩ := checkManifest_advances p u store m hs
    cases hf : (checkManifest p u store m).flow with
    | next =>
      rw [forManifests_cons_next p u store m ms hf]
      obtain ⟨hv2, hadv2⟩ := ih _ hv
      exact ⟨hv2, fun key => (hadv key).trans (hadv2 key)⟩
    | ret err =>
      rw [forManifests_cons_ret p u store m ms err hf]
      exact ⟨hv, hadv⟩
    | panic =>
      rw [forManifests_cons_panic p u store m ms hf]
      exact ⟨hv, hadv⟩

/-! ## The cycle -/

theorem CheckForUpdate_no_username (p : Plugin) (store : Store)
    (h : p.configuration.Username = "") :
    CheckForUpdate p store = ⟨store, [], .err "you need to set a user"⟩ := by
  simp [CheckForUpdate, h]

theorem CheckForUpdate_user_error (p : Plugin) (store : Store) (err : Error)
    (h : p.configuration.Username ≠ "")
    (hu : p.API.GetUserByUsername p.configuration.Username = .error err) :
    CheckForUpdate p store
      = ⟨store, [Event.GetUserByUsername p.configuration.Username], .err err⟩ := by
  simp [CheckForUpdate, h, hu]

theorem CheckForUpdate_plugins_error (p : Plugin) (store : Store) (u : User) (err : Error)
    (h : p.configuration.Username ≠ "")
    (hu : p.API.GetUserByUsername p.configuration.Username = .ok u)
    (hp : p.API.GetPlugins = .error err) :
    CheckForUpdate p store
      = ⟨store, [Event.GetUserByUsername p.configuration.Username,
          Event.LogDebug "checking for plugin updates" [], Event.GetPlugins], .err err⟩ := by
  simp [CheckForUpdate, h, hu, hp]

theorem CheckForUpdate_loop (p : Plugin) (store : Store) (u : User) (ms : List Manifest)
    (h : p.configuration.Username ≠ "")
    (hu : p.API.GetUserByUsername p.configuration.Username = .ok u)
    (hp : p.API.GetPlugins = .ok ms) :
    CheckForUpdate p store
      = ⟨(forManifests p u store ms).store,
          [Event.GetUserByUsername p.configuration.Username,
            Event.LogDebug "checking for plugin updates" [], Event.GetPlugins]
            ++ (forManifests p u store ms).events,
          (forManifests p u store ms).result⟩ := by
  simp [CheckForUpdate, h, hu, hp]

/-- A cycle ends before its loop, leaving the store alone and writing and posting
nothing, or it is its loop after three opening calls. -/
theorem CheckForUpdate_cases (p : Plugin) (store : Store) :
    ((CheckForUpdate p store).store = store ∧
      notifications (CheckForUpdate p store).events = [] ∧
      stateWrites (CheckForUpdate p store).events = [] ∧
      (CheckForUpdate p store).result ≠ .nil) ∨
    (∃ u ms, p.API.GetPlugins = .ok ms ∧
      (CheckForUpdate p store).store = (forManifests p u store ms).store ∧
      notifications (CheckForUpdate p store).events
        = notifications (forManifests p u store ms).events ∧
      stateWrites (CheckForUpdate p store).events
        = stateWrites (forManifests p u store ms).events ∧
      (CheckForUpdate p store).result = (forManifests p u store ms).result) := by
  by_cases h : p.configuration.Username = ""
  · left
    rw [CheckForUpdate_no_username p store h]
    simp
  · cases hu : p.API.GetUserByUsername p.configuration.Username with
    | error err =>
      left
      rw [CheckForUpdate_user_error p store err h hu]
      simp
    | ok u =>
      cases hp : p.API.GetPlugins with
      | error err =>
        left
        rw [CheckForUpdate_plugins_error p store u err h hu hp]
        simp
      | ok ms =>
        right
        rw [CheckForUpdate_loop p store u ms h hu hp]
        exact ⟨u, ms, rfl, rfl, by simp, by simp, rfl⟩

/-! ## Two cycles in a row -/

theorem forManifests_covers (p : Plugin) (u : User) (ms : List Manifest) :
    ∀ store, (forManifests p u store ms).result = .nil →
      (∀ key value, (key, value) ∈ stateWrites (forManifests p u store ms).events →
        p.API.KVSetError key value = none) →
      ∀ m ∈ ms, ∀ r t v, Pending p.API.GetLatestRelease m r t v →
        RecordCovers (forManifests p u store ms).store m.Id v := by
  induction ms with
  | nil =>
    intro store _ _ m hm
    cases hm
  | cons m0 rest ih =>
    intro store hres hw m hm r t v hp
    cases hf : (checkManifest p u store m0).flow with
    | ret err =>
      rw [forManifests_cons_ret p u store m0 rest err hf] at hres
      cases hres
    | panic =>
      rw [forManifests_cons_panic p u store m0 rest hf] at hres
      cases hres
    | next =>
      rw [forManifests_cons_next p u store m0 rest hf] at hres hw ⊢
      simp only [stateWrites_append, List.mem_append] at hw
      simp only at hres ⊢
      rcases List.mem_cons.mp hm with rfl | hmem
      · apply RecordCovers.loop
        rcases checkManifest_step p u store m with ⟨h1, _, _, h4⟩ |
          ⟨r2, t2, v2, channel, hp2, _, _, _, hst, _, hsw, _⟩
        · rw [h1]
          exact h4 hf r t v hp
        · obtain ⟨_, _, rfl⟩ := hp.unique hp2
          have hok := hw m.Id v.toString (Or.inl (by rw [hsw]; simp))
          rw [hst, p.API.KVSet_ok store m.Id v.toString hok]
          obtain ⟨_, _, _, _, _, _, _, _, _, _, hnew, _⟩ := hp
          exact ⟨v.toString, v, by simp [Store.get_set],
            semver.Parse_toString_Parse _ v hnew, by rw [semver.Version.Compare_self]⟩
      · exact ih _ hres (fun key value h => hw key value (Or.inr h)) m hmem r t v hp

theorem forManifests_quiet (p : Plugin) (u : User) (ms : List Manifest) :
    ∀ store, (∀ m ∈ ms, ∀ r t v, Pending p.API.GetLatestRelease m r t v →
        RecordCovers store m.Id v) →
      notifications (forManifests p u store ms).events = [] ∧
        stateWrites (forManifests p u store ms).events = [] := by
  induction ms with
  | nil =>
    intro store _
    simp [forManifests]
  | cons m rest ih =>
    intro store hcov
    rcases checkManifest_step p u store m with ⟨h1, h2, h3, _⟩ |
      ⟨r, t, v, channel, hp, _, hrec, _⟩
    · cases hf : (checkManifest p u store m).flow with
      | ret err =>
        rw [forManifests_cons_ret p u store m rest err hf]
        exact ⟨h2, h3⟩
      | panic =>
        rw [forManifests_cons_panic p u store m rest hf]
        exact ⟨h2, h3⟩
      | next =>
        rw [forManifests_cons_next p u store m rest hf, h1]
        obtain ⟨i1, i2⟩ := ih store (fun m2 hm2 => hcov m2 (List.mem_cons_of_mem _ hm2))
        simp [h2, h3, i1, i2]
    · exfalso
      obtain ⟨bytes, last, hb, hl, hle⟩ := hcov m (List.mem_cons_self _ _) r t v hp
      rcases hrec with hnone | ⟨bytes2, last2, hb2, hl2, hlt⟩
      · rw [hnone] at hb
        cases hb
      · rw [hb] at hb2
        cases hb2
        rw [hl] at hl2
        cases hl2
        omega


/-- C8: when the configured recipient user name is empty, or resolving it fails,
`CheckForUpdate` returns an error, leaves the store as it was, and the only call
it can have made is the recipient lookup itself: the inventory is not fetched, no
release is looked up, the store is neither read nor written and nothing is
posted. -/
theorem CheckForUpdate_aborts_without_recipient (p : Plugin) (store : Store)
    (h : p.configuration.Username = "" ∨
      ∃ err, p.API.GetUserByUsername p.configuration.Username = .error err) :
    (∃ e, (CheckForUpdate p store).result = .err e) ∧
      (CheckForUpdate p store).store = store ∧
      ∀ ev ∈ (CheckForUpdate p store).events,
        ev = Event.GetUserByUsername p.configuration.Username := by
  by_cases hn : p.configuration.Username = ""
  · rw [CheckForUpdate_no_username p store hn]
    simp
  · rcases h with h | ⟨err, herr⟩
    · exact absurd h hn
    · rw [CheckForUpdate_user_error p store err hn herr]
      simp

/-- The abort at a recipient that does not resolve. -/
theorem CheckForUpdate_aborts_without_recipient_witness :
    ((exPlugin (exAPINoUser [exManifest "com.example.a" "1.2.0" "https://github.com/o/r"]
        "v1.3.0")).configuration.Username = "" ∨
      ∃ err, (exPlugin (exAPINoUser [exManifest "com.example.a" "1.2.0"
        "https://github.com/o/r"] "v1.3.0")).API.GetUserByUsername
          (exPlugin (exAPINoUser [exManifest "com.example.a" "1.2.0"
            "https://github.com/o/r"] "v1.3.0")).configuration.Username = .error err) ∧
    ((∃ e, (CheckForUpdate (exPlugin (exAPINoUser [exManifest "com.example.a" "1.2.0"
        "https://github.com/o/r"] "v1.3.0")) []).result = .err e) ∧
      (CheckForUpdate (exPlugin (exAPINoUser [exManifest "com.example.a" "1.2.0"
        "https://github.com/o/r"] "v1.3.0")) []).store = [] ∧
      ∀ ev ∈ (CheckForUpdate (exPlugin (exAPINoUser [exManifest "com.example.a" "1.2.0"
        "https://github.com/o/r"] "v1.3.0")) []).events,
        ev = Event.GetUserByUsername (exPlugin (exAPINoUser [exManifest "com.example.a"
          "1.2.0" "https://github.com/o/r"] "v1.3.0")).configuration.Username) :=
  ⟨Or.inr ⟨"user not found", rfl⟩,
    CheckForUpdate_aborts_without_recipient _ [] (Or.inr ⟨"user not found", rfl⟩)⟩

/-- C10: a component whose `repository` property is absent, is not a string, or
is the empty string is skipped silently: its iteration only logs the debug line,
makes no release lookup, store access or post, raises no error, and the loop goes
on with the remaining components from the same store. -/
theorem forManifests_skips_untracked (p : Plugin) (u : User) (store : Store) (m : Manifest)
    (rest : List Manifest)
    (h : m.Props.lookup "repository" = none ∨ m.Props.lookup "repository" = some .other ∨
      m.Props.lookup "repository" = some (.str "")) :
    checkManifest p u store m
      = ⟨store, [Event.LogDebug "checking for updates" ["id", m.Id]], .next⟩ ∧
    forManifests p u store (m :: rest)
      = ⟨(forManifests p u store rest).store,
          Event.LogDebug "checking for updates" ["id", m.Id]
            :: (forManifests p u store rest).events,
          (forManifests p u store rest).result⟩ := by
  have hstep : checkManifest p u store m
      = ⟨store, [Event.LogDebug "checking for updates" ["id", m.Id]], .next⟩ := by
    rcases h with h | h | h <;> simp [checkManifest, stringAssertion, h]
  refine ⟨hstep, ?_⟩
  rw [forManifests_cons_next p u store m rest (by rw [hstep]), hstep]
  rfl

/-- The skip of a component without a `repository` property, followed by a
tracked one. -/
theorem forManifests_skips_untracked_witness :
    ((⟨"com.example.b", "b", "1.0.0", [("homepage", .str "https://example.com")]⟩ :
        Manifest).Props.lookup "repository" = none ∨
      (⟨"com.example.b", "b", "1.0.0", [("homepage", .str "https://example.com")]⟩ :
        Manifest).Props.lookup "repository" = some .other ∨
      (⟨"com.example.b", "b", "1.0.0", [("homepage", .str "https://example.com")]⟩ :
        Manifest).Props.lookup "repository" = some (.str "")) ∧
    forManifests (exPlugin (exAPI [] "v1.3.0")) ⟨"uid-admin"⟩ []
        ((⟨"com.example.b", "b", "1.0.0", [("homepage", .str "https://example.com")]⟩ :
          Manifest) :: [exManifest "com.example.a" "1.2.0" "https://github.com/o/r"])
      = ⟨(forManifests (exPlugin (exAPI [] "v1.3.0")) ⟨"uid-admin"⟩ []
            [exManifest "com.example.a" "1.2.0" "https://github.com/o/r"]).store,
          Event.LogDebug "checking for updates" ["id", "com.example.b"]
            :: (forManifests (exPlugin (exAPI [] "v1.3.0")) ⟨"uid-admin"⟩ []
              [exManifest "com.example.a" "1.2.0" "https://github.com/o/r"]).events,
          (forManifests (exPlugin (exAPI [] "v1.3.0")) ⟨"uid-admin"⟩ []
            [exManifest "com.example.a" "1.2.0" "https://github.com/o/r"]).result⟩ :=
  ⟨Or.inl (by decide),
    (forManifests_skips_untracked (exPlugin (exAPI [] "v1.3.0")) ⟨"uid-admin"⟩ []
      ⟨"com.example.b", "b", "1.0.0", [("homepage", .str "https://example.com")]⟩
      [exManifest "com.example.a" "1.2.0" "https://github.com/o/r"] (Or.inl (by decide))).2⟩


theorem checkManifest_pending (p : Plugin) (u : User) (store : Store) (m : Manifest)
    (r owner repo : String) (release : RepositoryRelease)
    (currentVersion newVersion : semver.Version)
    (hrepo : m.Props.lookup "repository" = some (.str r)) (hr : r ≠ "")
    (hsplit : strings.Split (strings.TrimPrefix (strings.TrimPrefix r "https://")
      "github.com/") '/' = [owner, repo])
    (hrel : p.API.GetLatestRelease owner repo = .ok release)
    (hcur : semver.Parse m.Version = some currentVersion)
    (hnew : semver.Parse (strings.TrimPrefix release.GetTagName "v") = some newVersion)
    (hlt : newVersion.LT currentVersion = false) :
    checkManifest p u store m = checkRecord p u store m r release.GetTagName newVersion
      [Event.LogDebug "checking for updates" ["id", m.Id], Event.GetLatestRelease owner repo,
        Event.LogDebug "need to update." ["id", m.Id]] := by
  simp [checkManifest, stringAssertion, hrepo, hr, hsplit, hrel, hcur, hnew, hlt]

/-- The iteration of a component whose release is not newer than its record: it
stops at the declared-version check or at the record check, writes and posts
nothing, and continues. -/
theorem checkManifest_already_notified (p : Plugin) (u : User) (store : Store)
    (m : Manifest) (r owner repo record : String)
    (release : RepositoryRelease) (currentVersion newVersion last : semver.Version)
    (hrepo : m.Props.lookup "repository" = some (.str r)) (hr : r ≠ "")
    (hsplit : strings.Split (strings.TrimPrefix (strings.TrimPrefix r "https://")
      "github.com/") '/' = [owner, repo])
    (hrel : p.API.GetLatestRelease owner repo = .ok release)
    (hcur : semver.Parse m.Version = some currentVersion)
    (hnew : semver.Parse (strings.TrimPrefix release.GetTagName "v") = some newVersion)
    (hget : p.API.KVGetError m.Id = none)
    (hrec : store.get m.Id = some record)
    (hlast : semver.Parse record = some last)
    (hle : newVersion.Compare last ≤ 0) :
    checkManifest p u store m
      = ⟨store,
          if newVersion.LT currentVersion then
            [Event.LogDebug "checking for updates" ["id", m.Id],
              Event.GetLatestRelease owner repo,
              Event.LogDebug "no need to update." ["id", m.Id]]
          else
            [Event.LogDebug "checking for updates" ["id", m.Id],
              Event.GetLatestRelease owner repo,
              Event.LogDebug "need to update." ["id", m.Id],
              Event.KVGet m.Id,
              Event.LogDebug
                "no need to post an notification. We allready send one for this release."
                ["id", m.Id]],
          .next⟩ := by
  by_cases hlt : newVersion.LT currentVersion = true
  · simp [checkManifest, stringAssertion, hrepo, hr, hsplit, hrel, hcur, hnew, hlt]
  · rw [checkManifest_pending p u store m r owner repo release currentVersion newVersion
      hrepo hr hsplit hrel hcur hnew (by simpa using hlt)]
    have hLE : newVersion.LE last = true := by simpa [semver.Version.LE] using hle
    simp [checkRecord, API.KVGet, hget, hrec, hlast, hLE, hlt]

/-- The text of the notification, word by word. -/
theorem postMessage_words (name version repositoryURL tag : String) :
    postMessage name version (repositoryURL ++ "/releases/tag/" ++ tag)
      = name ++ " can be " ++ "updates" ++ " to Version " ++ version
        ++ ". [Press here to jump to the release](" ++ repositoryURL ++ "/releases/tag/"
        ++ tag ++ ")" := by
  have hw : " can be " ++ "updates" ++ " to Version " = " can be updates to Version " := by
    decide
  unfold postMessage
  rw [← hw]
  simp only [String.append_assoc]

/-- The iteration of a component with a newer release and no record, when channel
resolution and delivery succeed: the calls it makes, the store it leaves, and that
it continues. -/
theorem checkManifest_notifies (p : Plugin) (u : User) (store : Store)
    (m : Manifest) (r owner repo : String) (release : RepositoryRelease)
    (currentVersion newVersion : semver.Version) (channel : Channel) (created : Post)
    (hrepo : m.Props.lookup "repository" = some (.str r)) (hr : r ≠ "")
    (hsplit : strings.Split (strings.TrimPrefix (strings.TrimPrefix r "https://")
      "github.com/") '/' = [owner, repo])
    (hrel : p.API.GetLatestRelease owner repo = .ok release)
    (hcur : semver.Parse m.Version = some currentVersion)
    (hnew : semver.Parse (strings.TrimPrefix release.GetTagName "v") = some newVersion)
    (hgt : 0 < newVersion.Compare currentVersion)
    (hget : p.API.KVGetError m.Id = none)
    (hrec : store.get m.Id = none)
    (hchan : p.API.GetDirectChannel p.BotUserID u.Id = .ok channel)
    (hpost : p.API.CreatePost ⟨p.BotUserID, channel.Id,
      postMessage m.Name (strings.TrimPrefix release.GetTagName "v")
        (r ++ "/releases/tag/" ++ release.GetTagName)⟩ = .ok created) :
    checkManifest p u store m
      = ⟨(p.API.KVSet store m.Id (strings.TrimPrefix release.GetTagName "v")).1,
          [Event.LogDebug "checking for updates" ["id", m.Id],
            Event.GetLatestRelease owner repo,
            Event.LogDebug "need to update." ["id", m.Id],
            Event.KVGet m.Id,
            Event.LogDebug "we need to post an notification." ["id", m.Id],
            Event.GetDirectChannel p.BotUserID u.Id,
            Event.KVSet m.Id (strings.TrimPrefix release.GetTagName "v"),
            Event.CreatePost ⟨p.BotUserID, channel.Id,
              postMessage m.Name (strings.TrimPrefix release.GetTagName "v")
                (r ++ "/releases/tag/" ++ release.GetTagName)⟩],
          .next⟩ := by
  have hlt : newVersion.LT currentVersion = false := by
    simp only [semver.Version.LT, beq_eq_false_iff_ne, ne_eq]
    omega
  have hs := semver.Parse_toString _ newVersion hnew
  rw [checkManifest_pending p u store m r owner repo release currentVersion newVersion
    hrepo hr hsplit hrel hcur hnew hlt]
  simp [checkRecord, API.KVGet, hget, hrec, notify, hchan, hs, hpost]

/-- The cycle when its loop reaches a component whose iteration continues: the
opening calls, the calls of the components before, the calls of the component,
then the loop over the remaining components on the store the component left. -/
theorem CheckForUpdate_at_next (p : Plugin) (store : Store) (u : User)
    (pre post : List Manifest) (m : Manifest)
    (hname : p.configuration.Username ≠ "")
    (huser : p.API.GetUserByUsername p.configuration.Username = .ok u)
    (hplug : p.API.GetPlugins = .ok (pre ++ m :: post))
    (hpre : (forManifests p u store pre).result = .nil)
    (hflow : (checkManifest p u (forManifests p u store pre).store m).flow = .next) :
    CheckForUpdate p store
      = ⟨(forManifests p u (checkManifest p u (forManifests p u store pre).store m).store
            post).store,
          [Event.GetUserByUsername p.configuration.Username,
            Event.LogDebug "checking for plugin updates" [], Event.GetPlugins]
            ++ ((forManifests p u store pre).events
              ++ ((checkManifest p u (forManifests p u store pre).store m).events
                ++ (forManifests p u (checkManifest p u (forManifests p u store pre).store
                  m).store post).events)),
          (forManifests p u (checkManifest p u (forManifests p u store pre).store m).store
            post).result⟩ := by
  rw [CheckForUpdate_loop p store u _ hname huser hplug, forManifests_append p u pre _ store hpre,
    forManifests_cons_next p u _ m post hflow]

/-- The cycle when its loop reaches a component whose iteration returns an
error: the calls up to there, and that error. -/
theorem CheckForUpdate_at_ret (p : Plugin) (store : Store) (u : User)
    (pre post : List Manifest) (m : Manifest) (err : Error)
    (hname : p.configuration.Username ≠ "")
    (huser : p.API.GetUserByUsername p.configuration.Username = .ok u)
    (hplug : p.API.GetPlugins = .ok (pre ++ m :: post))
    (hpre : (forManifests p u store pre).result = .nil)
    (hflow : (checkManifest p u (forManifests p u store pre).store m).flow = .ret err) :
    CheckForUpdate p store
      = ⟨(checkManifest p u (forManifests p u store pre).store m).store,
          [Event.GetUserByUsername p.configuration.Username,
            Event.LogDebug "checking for plugin updates" [], Event.GetPlugins]
            ++ ((forManifests p u store pre).events
              ++ (checkManifest p u (forManifests p u store pre).store m).events),
          .err err⟩ := by
  rw [CheckForUpdate_loop p store u _ hname huser hplug, forManifests_append p u pre _ store hpre,
    forManifests_cons_ret p u _ m post err hflow]

theorem checkManifest_malformed (p : Plugin) (u : User) (store : Store) (m : Manifest)
    (r : String) (hrepo : m.Props.lookup "repository" = some (.str r)) (hr : r ≠ "")
    (hlen : (strings.Split (strings.TrimPrefix (strings.TrimPrefix r "https://")
      "github.com/") '/').length ≠ 2) :
    checkManifest p u store m
      = ⟨store, [Event.LogDebug "checking for updates" ["id", m.Id]],
          .ret ("failed to extract username and repository from URL " ++ r)⟩ := by
  simp only [checkManifest, stringAssertion, hrepo, Bool.not_true, Bool.false_or, beq_iff_eq, hr,
    if_false]
  split
  next owner repo hsplit =>
    rw [hsplit] at hlen
    exact absurd rfl hlen
  next => rfl

theorem checkManifest_lookup_error (p : Plugin) (u : User) (store : Store) (m : Manifest)
    (r owner repo : String) (err : Error)
    (hrepo : m.Props.lookup "repository" = some (.str r)) (hr : r ≠ "")
    (hsplit : strings.Split (strings.TrimPrefix (strings.TrimPrefix r "https://")
      "github.com/") '/' = [owner, repo])
    (hrel : p.API.GetLatestRelease owner repo = .error err) :
    checkManifest p u store m
      = ⟨store, [Event.LogDebug "checking for updates" ["id", m.Id],
          Event.GetLatestRelease owner repo], .ret err⟩ := by
  simp [checkManifest, stringAssertion, hrepo, hr, hsplit, hrel]

/-- C4 (as the code has it): a component B with a malformed repository
reference, or whose release lookup fails, ends the cycle at B. When the loop
reaches B, `CheckForUpdate` returns the error of that failure (the
"failed to extract" error naming B's URL, respectively the error of the lookup),
the store is the one left by the components before B, and the calls are the
opening calls, the calls of the components before B, and B's debug line
(followed by the lookup when that is what failed): the effects of earlier
components are kept and no later component is processed. -/
theorem CheckForUpdate_aborts_at_failing_component (p : Plugin) (store : Store) (u : User)
    (pre post : List Manifest) (B : Manifest) (r : String)
    (hname : p.configuration.Username ≠ "")
    (huser : p.API.GetUserByUsername p.configuration.Username = .ok u)
    (hplug : p.API.GetPlugins = .ok (pre ++ B :: post))
    (hpre : (forManifests p u store pre).result = .nil)
    (hrepo : B.Props.lookup "repository" = some (.str r)) (hr : r ≠ "") :
    ((strings.Split (strings.TrimPrefix (strings.TrimPrefix r "https://")
        "github.com/") '/').length ≠ 2 →
      CheckForUpdate p store
        = ⟨(forManifests p u store pre).store,
            [Event.GetUserByUsername p.configuration.Username,
              Event.LogDebug "checking for plugin updates" [], Event.GetPlugins]
              ++ ((forManifests p u store pre).events
                ++ [Event.LogDebug "checking for updates" ["id", B.Id]]),
            .err ("failed to extract username and repository from URL " ++ r)⟩) ∧
    (∀ owner repo err,
      strings.Split (strings.TrimPrefix (strings.TrimPrefix r "https://")
        "github.com/") '/' = [owner, repo] →
      p.API.GetLatestRelease owner repo = .error err →
      CheckForUpdate p store
        = ⟨(forManifests p u store pre).store,
            [Event.GetUserByUsername p.configuration.Username,
              Event.LogDebug "checking for plugin updates" [], Event.GetPlugins]
              ++ ((forManifests p u store pre).events
                ++ [Event.LogDebug "checking for updates" ["id", B.Id],
                  Event.GetLatestRelease owner repo]),
            .err err⟩) := by
  constructor
  · intro hlen
    have hB := checkManifest_malformed p u (forManifests p u store pre).store B r hrepo hr hlen
    rw [CheckForUpdate_at_ret p store u pre post B _ hname huser hplug hpre (by rw [hB]), hB]
  · intro owner repo err hsplit hrel
    have hB := checkManifest_lookup_error p u (forManifests p u store pre).store B r owner repo
      err hrepo hr hsplit hrel
    rw [CheckForUpdate_at_ret p store u pre post B _ hname huser hplug hpre (by rw [hB]), hB]

/-- The abort after a notified component A: at a malformed B, and at a B whose
lookup fails, each followed by an updatable C; the notification and the record of
A are kept and nothing is done for C. -/
theorem CheckForUpdate_aborts_at_failing_component_witness :
    ((strings.Split (strings.TrimPrefix (strings.TrimPrefix "https://github.com/onlyowner"
        "https://") "github.com/") '/').length ≠ 2 ∧
      CheckForUpdate (exPlugin (exAPI
          ([exManifest "com.example.a" "1.2.0" "https://github.com/o/a"]
            ++ exManifest "com.example.b" "1.0.0" "https://github.com/onlyowner"
            :: [exManifest "com.example.c" "1.2.0" "https://github.com/o/r"]) "v1.3.0")) []
        = ⟨[("com.example.a", "1.3.0")],
            [Event.GetUserByUsername "admin",
              Event.LogDebug "checking for plugin updates" [], Event.GetPlugins,
              Event.LogDebug "checking for updates" ["id", "com.example.a"],
              Event.GetLatestRelease "o" "a",
              Event.LogDebug "need to update." ["id", "com.example.a"],
              Event.KVGet "com.example.a",
              Event.LogDebug "we need to post an notification." ["id", "com.example.a"],
              Event.GetDirectChannel "bot" "uid-admin",
              Event.KVSet "com.example.a" "1.3.0",
              Event.CreatePost ⟨"bot", "bot__uid-admin",
                "com.example.a can be updates to Version 1.3.0. [Press here to jump to the release](https://github.com/o/a/releases/tag/v1.3.0)"⟩,
              Event.LogDebug "checking for updates" ["id", "com.example.b"]],
            .err "failed to extract username and repository from URL https://github.com/onlyowner"⟩) ∧
    ((strings.Split (strings.TrimPrefix (strings.TrimPrefix "https://github.com/o/b"
        "https://") "github.com/") '/' = ["o", "b"] ∧
      (exPlugin (exAPILookupFails
        ([exManifest "com.example.a" "1.2.0" "https://github.com/o/a"]
          ++ exManifest "com.example.b" "1.0.0" "https://github.com/o/b"
          :: [exManifest "com.example.c" "1.2.0" "https://github.com/o/r"])
        "v1.3.0" "b")).API.GetLatestRelease "o" "b" = .error "lookup failed") ∧
      CheckForUpdate (exPlugin (exAPILookupFails
          ([exManifest "com.example.a" "1.2.0" "https://github.com/o/a"]
            ++ exManifest "com.example.b" "1.0.0" "https://github.com/o/b"
            :: [exManifest "com.example.c" "1.2.0" "https://github.com/o/r"])
          "v1.3.0" "b")) []
        = ⟨[("com.example.a", "1.3.0")],
            [Event.GetUserByUsername "admin",
              Event.LogDebug "checking for plugin updates" [], Event.GetPlugins,
              Event.LogDebug "checking for updates" ["id", "com.example.a"],
              Event.GetLatestRelease "o" "a",
              Event.LogDebug "need to update." ["id", "com.example.a"],
              Event.KVGet "com.example.a",
              Event.LogDebug "we need to post an notification." ["id", "com.example.a"],
              Event.GetDirectChannel "bot" "uid-admin",
              Event.KVSet "com.example.a" "1.3.0",
              Event.CreatePost ⟨"bot", "bot__uid-admin",
                "com.example.a can be updates to Version 1.3.0. [Press here to jump to the release](https://github.com/o/a/releases/tag/v1.3.0)"⟩,
              Event.LogDebug "checking for updates" ["id", "com.example.b"],
              Event.GetLatestRelease "o" "b"],
            .err "lookup failed"⟩) :=
  ⟨⟨by decide,
      ((CheckForUpdate_aborts_at_failing_component
        (exPlugin (exAPI ([exManifest "com.example.a" "1.2.0" "https://github.com/o/a"]
          ++ exManifest "com.example.b" "1.0.0" "https://github.com/onlyowner"
          :: [exManifest "com.example.c" "1.2.0" "https://github.com/o/r"]) "v1.3.0")) []
        ⟨"uid-admin"⟩ [exManifest "com.example.a" "1.2.0" "https://github.com/o/a"]
        [exManifest "com.example.c" "1.2.0" "https://github.com/o/r"]
        (exManifest "com.example.b" "1.0.0" "https://github.com/onlyowner")
        "https://github.com/onlyowner" (by decide) rfl rfl (by decide) (by decide)
        (by decide)).1 (by decide)).trans (by decide)⟩,
    ⟨by decide, rfl⟩,
    ((CheckForUpdate_aborts_at_failing_component
      (exPlugin (exAPILookupFails ([exManifest "com.example.a" "1.2.0" "https://github.com/o/a"]
        ++ exManifest "com.example.b" "1.0.0" "https://github.com/o/b"
        :: [exManifest "com.example.c" "1.2.0" "https://github.com/o/r"]) "v1.3.0" "b")) []
      ⟨"uid-admin"⟩ [exManifest "com.example.a" "1.2.0" "https://github.com/o/a"]
      [exManifest "com.example.c" "1.2.0" "https://github.com/o/r"]
      (exManifest "com.example.b" "1.0.0" "https://github.com/o/b")
      "https://github.com/o/b" (by decide) rfl rfl (by decide) (by decide)
      (by decide)).2 "o" "b" "lookup failed" (by decide) rfl).trans (by decide)⟩

/-- C4 fails as stated: with a component B whose repository reference is
malformed placed before an updatable component C, the cycle sends nothing for C,
while the cycle without B notifies for C. -/
theorem CheckForUpdate_failure_not_isolated :
    notifications (CheckForUpdate (exPlugin (exAPI
        [exManifest "com.example.b" "1.0.0" "https://github.com/onlyowner",
          exManifest "com.example.c" "1.2.0" "https://github.com/o/r"] "v1.3.0")) []).events
      = [] ∧
    notifications (CheckForUpdate (exPlugin (exAPI
        [exManifest "com.example.c" "1.2.0" "https://github.com/o/r"] "v1.3.0")) []).events
      = [⟨"bot", "bot__uid-admin",
          "com.example.c can be updates to Version 1.3.0. [Press here to jump to the release](https://github.com/o/r/releases/tag/v1.3.0)"⟩] := by
  decide

/-- Every notification of an iteration carries the text of the format string of
line 140 around the name, the parsed tag and the link. -/
theorem checkManifest_message_literal (p : Plugin) (u : User) (store : Store) (m : Manifest)
    (post : Post) (h : post ∈ notifications (checkManifest p u store m).events) :
    ∃ r owner repo release v,
      m.Props.lookup "repository" = some (.str r) ∧
      strings.Split (strings.TrimPrefix (strings.TrimPrefix r "https://") "github.com/") '/'
        = [owner, repo] ∧
      p.API.GetLatestRelease owner repo = .ok release ∧
      semver.Parse (strings.TrimPrefix release.GetTagName "v") = some v ∧
      v.toString = strings.TrimPrefix release.GetTagName "v" ∧
      post.Message = m.Name ++ " can be updates to Version " ++ v.toString
        ++ ". [Press here to jump to the release](" ++ r ++ "/releases/tag/"
        ++ release.GetTagName ++ ")" := by
  rcases checkManifest_step p u store m with ⟨_, h2, _⟩ |
    ⟨r, t, v, channel, hp, _, _, _, _, hn, _⟩
  · rw [h2] at h
    cases h
  · rw [hn] at h
    simp only [List.mem_singleton] at h
    subst h
    obtain ⟨h1, _, owner, repo, release, c, h3, h4, h5, _, h7, _⟩ := hp
    subst h5
    refine ⟨r, owner, repo, release, v, h1, h3, h4, h7, semver.Parse_toString _ v h7, ?_⟩
    simp [postMessage, String.append_assoc]

/-- C9 (as the code has it): there is one fixed word `w` such that every
notification of an iteration has the message
`name ++ " can be " ++ w ++ " to Version " ++ version ++ ". [Press here to jump
to the release](" ++ repositoryURL ++ "/releases/tag/" ++ tag ++ ")"`, where the
repository URL is the property as declared, the tag is the unmodified release tag
and the version is the parsed tag, which prints as the tag without its leading
`v`. -/
theorem checkManifest_message_format :
    ∃ w : String, ∀ (p : Plugin) (u : User) (store : Store) (m : Manifest) (post : Post),
      post ∈ notifications (checkManifest p u store m).events →
      ∃ r owner repo release v,
        m.Props.lookup "repository" = some (.str r) ∧
        strings.Split (strings.TrimPrefix (strings.TrimPrefix r "https://") "github.com/") '/'
          = [owner, repo] ∧
        p.API.GetLatestRelease owner repo = .ok release ∧
        semver.Parse (strings.TrimPrefix release.GetTagName "v") = some v ∧
        v.toString = strings.TrimPrefix release.GetTagName "v" ∧
        post.Message = m.Name ++ " can be " ++ w ++ " to Version " ++ v.toString
          ++ ". [Press here to jump to the release](" ++ r ++ "/releases/tag/"
          ++ release.GetTagName ++ ")" := by
  refine ⟨"updates", fun p u store m post h => ?_⟩
  obtain ⟨r, owner, repo, release, v, h1, h2, h3, h4, h5, h6⟩ :=
    checkManifest_message_literal p u store m post h
  refine ⟨r, owner, repo, release, v, h1, h2, h3, h4, h5, ?_⟩
  have hw : " can be " ++ "updates" ++ " to Version " = " can be updates to Version " := by
    decide
  rw [h6, ← hw]
  simp only [String.append_assoc]

/-- The message format at declared `1.2.0` and tag `v1.3.0`. -/
theorem checkManifest_message_format_witness :
    ∃ w : String,
      (⟨"bot", "bot__uid-admin",
        "com.example.a can be updates to Version 1.3.0. [Press here to jump to the release](https://github.com/o/r/releases/tag/v1.3.0)"⟩ : Post)
        ∈ notifications (checkManifest (exPlugin (exAPI [] "v1.3.0")) ⟨"uid-admin"⟩ []
          (exManifest "com.example.a" "1.2.0" "https://github.com/o/r")).events ∧
      ∃ r owner repo release v,
        (exManifest "com.example.a" "1.2.0" "https://github.com/o/r").Props.lookup "repository"
          = some (.str r) ∧
        strings.Split (strings.TrimPrefix (strings.TrimPrefix r "https://") "github.com/") '/'
          = [owner, repo] ∧
        (exPlugin (exAPI [] "v1.3.0")).API.GetLatestRelease owner repo = .ok release ∧
        semver.Parse (strings.TrimPrefix release.GetTagName "v") = some v ∧
        v.toString = strings.TrimPrefix release.GetTagName "v" ∧
        (⟨"bot", "bot__uid-admin",
          "com.example.a can be updates to Version 1.3.0. [Press here to jump to the release](https://github.com/o/r/releases/tag/v1.3.0)"⟩ : Post).Message
          = (exManifest "com.example.a" "1.2.0" "https://github.com/o/r").Name
            ++ " can be " ++ w ++ " to Version " ++ v.toString
            ++ ". [Press here to jump to the release](" ++ r ++ "/releases/tag/"
            ++ release.GetTagName ++ ")" :=
  checkManifest_message_format.elim fun w hw =>
    ⟨w, by decide,
      hw (exPlugin (exAPI [] "v1.3.0")) ⟨"uid-admin"⟩ []
        (exManifest "com.example.a" "1.2.0" "https://github.com/o/r") _ (by decide)⟩

/-- C9 fails as stated: the message sent for declared `1.2.0` and tag `v1.3.0` is
not `name ++ " can be updated to version " ++ ...` for any link text. -/
theorem CheckForUpdate_message_differs :
    ¬ ∃ linkText : String,
      (notifications (CheckForUpdate (exPlugin (exAPI
        [exManifest "com.example.a" "1.2.0" "https://github.com/o/r"] "v1.3.0")) []).events).map
          Post.Message
        = ["com.example.a" ++ " can be updated to version " ++ "1.3.0" ++ ". [" ++ linkText
            ++ "](" ++ "https://github.com/o/r" ++ "/releases/tag/" ++ "v1.3.0" ++ ")"] := by
  have hmsg : (notifications (CheckForUpdate (exPlugin (exAPI
      [exManifest "com.example.a" "1.2.0" "https://github.com/o/r"] "v1.3.0")) []).events).map
        Post.Message
      = ["com.example.a can be updates to Version 1.3.0. [Press here to jump to the release](https://github.com/o/r/releases/tag/v1.3.0)"] := by
    decide
  rintro ⟨linkText, h⟩
  rw [hmsg] at h
  simp only [List.cons.injEq, and_true] at h
  have h2 := congrArg String.data h
  simp only [String.data_append, List.append_assoc] at h2
  simp at h2


/-- C5: started from a store whose values are valid semantic versions, a cycle
leaves such a store, and the record of every identity that had a value still has
one that is not lower in precedence, being either the same text or a strictly
higher version; and in every iteration, a state write for an identity that
already had a value writes a version strictly greater than the value it
replaces. -/
theorem CheckForUpdate_records_monotone (p : Plugin) (store : Store) (hvalid : store.Valid) :
    (CheckForUpdate p store).store.Valid ∧
      (∀ key, RecordNotLower (store.get key) ((CheckForUpdate p store).store.get key)) ∧
      (∀ key, RecordAdvances (store.get key) ((CheckForUpdate p store).store.get key)) ∧
      ∀ (u : User) (mid : Store) (m : Manifest) (key value old : String),
        (key, value) ∈ stateWrites (checkManifest p u mid m).events →
        mid.get key = some old →
        ∃ vo vn, semver.Parse old = some vo ∧ semver.Parse value = some vn ∧
          0 < vn.Compare vo := by
  have hmain : (CheckForUpdate p store).store.Valid ∧
      ∀ key, RecordAdvances (store.get key) ((CheckForUpdate p store).store.get key) := by
    rcases CheckForUpdate_cases p store with ⟨h1, _⟩ | ⟨u, ms, _, h1, _⟩
    · rw [h1]
      exact ⟨hvalid, fun key => RecordAdvances.refl hvalid key⟩
    · rw [h1]
      exact forManifests_advances p u ms store hvalid
  exact ⟨hmain.1, fun key => (hmain.2 key).notLower, hmain.2,
    fun u mid m key value old hw hold => checkManifest_write_strict p u mid m key value old hw hold⟩

/-- A cycle that raises the record `1.2.5` to `1.3.0`. -/
theorem CheckForUpdate_records_monotone_witness :
    Store.Valid [("com.example.a", "1.2.5")] ∧
      RecordNotLower (Store.get [("com.example.a", "1.2.5")] "com.example.a")
        ((CheckForUpdate (exPlugin (exAPI
          [exManifest "com.example.a" "1.2.0" "https://github.com/o/r"] "v1.3.0"))
          [("com.example.a", "1.2.5")]).store.get "com.example.a") :=
  ⟨(Store.Valid.set (s := []) (fun _ _ h => by cases h) "com.example.a" "1.2.5"
      ⟨1, 2, 5, [], []⟩ (by decide)),
    (CheckForUpdate_records_monotone (exPlugin (exAPI
      [exManifest "com.example.a" "1.2.0" "https://github.com/o/r"] "v1.3.0"))
      [("com.example.a", "1.2.5")]
      (Store.Valid.set (s := []) (fun _ _ h => by cases h) "com.example.a" "1.2.5"
        ⟨1, 2, 5, [], []⟩ (by decide))).2.1 "com.example.a"⟩

/-- C6 (as the code has it): when a first cycle returns `nil` and the store
accepted every state write it made, a second cycle with the same inventory and
the same latest releases, started on the store the first one left, sends no
notification and makes no state write. -/
theorem CheckForUpdate_second_cycle_quiet (p1 p2 : Plugin) (store : Store)
    (hplugins : p2.API.GetPlugins = p1.API.GetPlugins)
    (hreleases : p2.API.GetLatestRelease = p1.API.GetLatestRelease)
    (hok : (CheckForUpdate p1 store).result = .nil)
    (hwrites : ∀ key value, (key, value) ∈ stateWrites (CheckForUpdate p1 store).events →
      p1.API.KVSetError key value = none) :
    notifications (CheckForUpdate p2 (CheckForUpdate p1 store).store).events = [] ∧
      stateWrites (CheckForUpdate p2 (CheckForUpdate p1 store).store).events = [] := by
  rcases CheckForUpdate_cases p1 store with ⟨_, _, _, hne⟩ | ⟨u1, ms, hms, hst, _, hsw, hres⟩
  · exact absurd hok hne
  · rw [hres] at hok
    rw [hsw] at hwrites
    have hcov := forManifests_covers p1 u1 ms store hok hwrites
    rw [← hst] at hcov
    rcases CheckForUpdate_cases p2 (CheckForUpdate p1 store).store with
      ⟨_, h2, h3, _⟩ | ⟨u2, ms2, hms2, _, h2, h3, _⟩
    · exact ⟨h2, h3⟩
    · rw [hplugins, hms] at hms2
      cases hms2
      rw [h2, h3]
      apply forManifests_quiet
      intro m hm r t v hp
      rw [hreleases] at hp
      exact hcov m hm r t v hp

/-- Two cycles at declared `1.2.0` and tag `v1.3.0` from the empty store. -/
theorem CheckForUpdate_second_cycle_quiet_witness :
    (CheckForUpdate (exPlugin (exAPI
        [exManifest "com.example.a" "1.2.0" "https://github.com/o/r"] "v1.3.0")) []).result
      = .nil ∧
    notifications (CheckForUpdate (exPlugin (exAPI
        [exManifest "com.example.a" "1.2.0" "https://github.com/o/r"] "v1.3.0"))
      (CheckForUpdate (exPlugin (exAPI
        [exManifest "com.example.a" "1.2.0" "https://github.com/o/r"] "v1.3.0"))
        []).store).events = [] ∧
    stateWrites (CheckForUpdate (exPlugin (exAPI
        [exManifest "com.example.a" "1.2.0" "https://github.com/o/r"] "v1.3.0"))
      (CheckForUpdate (exPlugin (exAPI
        [exManifest "com.example.a" "1.2.0" "https://github.com/o/r"] "v1.3.0"))
        []).store).events = [] :=
  ⟨by decide,
    CheckForUpdate_second_cycle_quiet
      (exPlugin (exAPI [exManifest "com.example.a" "1.2.0" "https://github.com/o/r"] "v1.3.0"))
      (exPlugin (exAPI [exManifest "com.example.a" "1.2.0" "https://github.com/o/r"] "v1.3.0"))
      [] rfl rfl (by decide) (fun _ _ _ => rfl)⟩

/-- C6 fails as stated: when the store rejects the write, the first cycle still
returns `nil` (the error of `KVSet` is dropped), the store is unchanged, and the
second cycle with the same inventory and release notifies again and writes
again. -/
theorem CheckForUpdate_renotifies_after_failed_write :
    (CheckForUpdate (exPlugin (exAPIWriteFails
        [exManifest "com.example.a" "1.2.0" "https://github.com/o/r"] "v1.3.0")) []).result
      = .nil ∧
    notifications (CheckForUpdate (exPlugin (exAPIWriteFails
        [exManifest "com.example.a" "1.2.0" "https://github.com/o/r"] "v1.3.0"))
      (CheckForUpdate (exPlugin (exAPIWriteFails
        [exManifest "com.example.a" "1.2.0" "https://github.com/o/r"] "v1.3.0"))
        []).store).events
      = [⟨"bot", "bot__uid-admin",
          "com.example.a can be updates to Version 1.3.0. [Press here to jump to the release](https://github.com/o/r/releases/tag/v1.3.0)"⟩] ∧
    stateWrites (CheckForUpdate (exPlugin (exAPIWriteFails
        [exManifest "com.example.a" "1.2.0" "https://github.com/o/r"] "v1.3.0"))
      (CheckForUpdate (exPlugin (exAPIWriteFails
        [exManifest "com.example.a" "1.2.0" "https://github.com/o/r"] "v1.3.0"))
        []).store).events
      = [("com.example.a", "1.3.0")] := by
  decide

/-- A component whose release version is strictly lower than its declared version
is left alone: the iteration logs, looks the release up, and continues without a
store access or a post. -/
theorem checkManifest_release_lower (p : Plugin) (u : User) (store : Store) (m : Manifest)
    (r owner repo : String) (release : RepositoryRelease)
    (currentVersion newVersion : semver.Version)
    (hrepo : m.Props.lookup "repository" = some (.str r)) (hr : r ≠ "")
    (hsplit : strings.Split (strings.TrimPrefix (strings.TrimPrefix r "https://")
      "github.com/") '/' = [owner, repo])
    (hrel : p.API.GetLatestRelease owner repo = .ok release)
    (hcur : semver.Parse m.Version = some currentVersion)
    (hnew : semver.Parse (strings.TrimPrefix release.GetTagName "v") = some newVersion)
    (hlower : newVersion.Compare currentVersion < 0) :
    checkManifest p u store m
      = ⟨store, [Event.LogDebug "checking for updates" ["id", m.Id],
          Event.GetLatestRelease owner repo,
          Event.LogDebug "no need to update." ["id", m.Id]], .next⟩ := by
  have hlt : newVersion.LT currentVersion = true := by
    have := semver.versionCompare_isCompare.range newVersion currentVersion
    simp only [semver.Version.LT, beq_iff_eq]
    omega
  simp [checkManifest, stringAssertion, hrepo, hr, hsplit, hrel, hcur, hnew, hlt]

/-- C1, the code at the failing input: declared version `1.2.0` and latest tag
`v1.2.0` compare equal, there is no prior record, and the cycle nevertheless
posts a notification and writes the record `1.2.0`. -/
theorem CheckForUpdate_notifies_on_equal_version :
    (semver.Parse "1.2.0").map (fun v => v.Compare ⟨1, 2, 0, [], []⟩) = some 0 ∧
    notifications (CheckForUpdate (exPlugin (exAPI
        [exManifest "com.example.a" "1.2.0" "https://github.com/o/r"] "v1.2.0")) []).events
      = [⟨"bot", "bot__uid-admin",
          "com.example.a can be updates to Version 1.2.0. [Press here to jump to the release](https://github.com/o/r/releases/tag/v1.2.0)"⟩] ∧
    stateWrites (CheckForUpdate (exPlugin (exAPI
        [exManifest "com.example.a" "1.2.0" "https://github.com/o/r"] "v1.2.0")) []).events
      = [("com.example.a", "1.2.0")] ∧
    (CheckForUpdate (exPlugin (exAPI
        [exManifest "com.example.a" "1.2.0" "https://github.com/o/r"] "v1.2.0")) []).store
      = [("com.example.a", "1.2.0")] := by
  decide

/-- C3, the code at the failing input: when delivery fails, the cycle returns
the delivery error, yet the state write for the component was already made and
the store holds the new version; the next cycle, with delivery working, finds the
record and sends nothing. -/
theorem CheckForUpdate_writes_before_failed_delivery :
    (CheckForUpdate (exPlugin (exAPIPostFails
        [exManifest "com.example.a" "1.2.0" "https://github.com/o/r"] "v1.3.0")) []).result
      = .err "delivery failed" ∧
    stateWrites (CheckForUpdate (exPlugin (exAPIPostFails
        [exManifest "com.example.a" "1.2.0" "https://github.com/o/r"] "v1.3.0")) []).events
      = [("com.example.a", "1.3.0")] ∧
    (CheckForUpdate (exPlugin (exAPIPostFails
        [exManifest "com.example.a" "1.2.0" "https://github.com/o/r"] "v1.3.0")) []).store.get
        "com.example.a" = some "1.3.0" ∧
    notifications (CheckForUpdate (exPlugin (exAPI
        [exManifest "com.example.a" "1.2.0" "https://github.com/o/r"] "v1.3.0"))
      (CheckForUpdate (exPlugin (exAPIPostFails
        [exManifest "com.example.a" "1.2.0" "https://github.com/o/r"] "v1.3.0"))
        []).store).events = [] := by
  decide

/-- C2 (as the code has it): there is one fixed word `w` such that, for a
component with a well-formed repository reference, a successful release lookup
and a release version strictly greater than the declared one, in a cycle whose
loop reaches it (the recipient resolves, the inventory is fetched, the components
before it all continued), with no record under its identity at that point, a
successful record read, and successful channel resolution and delivery: the cycle
consists of the opening calls, the calls of the components before, then for this
component the debug lines, the release lookup, the record read, the channel
resolution, exactly one state write, of the tag without its leading `v` under the
component's identity, and exactly one notification, with the message
`name ++ " can be " ++ w ++ " to Version " ++ version ++ ". [Press here to jump to
the release](" ++ repositoryURL ++ "/releases/tag/" ++ tag ++ ")"`, and then the
loop over the remaining components; when the store accepts the write, the record
of the component after its iteration is the tag without its leading `v`. -/
theorem CheckForUpdate_first_notification :
    ∃ w : String, ∀ (p : Plugin) (store : Store) (u : User) (pre post : List Manifest)
      (m : Manifest) (r owner repo : String) (release : RepositoryRelease)
      (currentVersion newVersion : semver.Version) (channel : Channel) (created : Post),
      p.configuration.Username ≠ "" →
      p.API.GetUserByUsername p.configuration.Username = .ok u →
      p.API.GetPlugins = .ok (pre ++ m :: post) →
      (forManifests p u store pre).result = .nil →
      m.Props.lookup "repository" = some (.str r) →
      r ≠ "" →
      strings.Split (strings.TrimPrefix (strings.TrimPrefix r "https://") "github.com/") '/'
        = [owner, repo] →
      p.API.GetLatestRelease owner repo = .ok release →
      semver.Parse m.Version = some currentVersion →
      semver.Parse (strings.TrimPrefix release.GetTagName "v") = some newVersion →
      0 < newVersion.Compare currentVersion →
      p.API.KVGetError m.Id = none →
      (forManifests p u store pre).store.get m.Id = none →
      p.API.GetDirectChannel p.BotUserID u.Id = .ok channel →
      p.API.CreatePost ⟨p.BotUserID, channel.Id,
        m.Name ++ " can be " ++ w ++ " to Version " ++ strings.TrimPrefix release.GetTagName "v"
          ++ ". [Press here to jump to the release](" ++ r ++ "/releases/tag/"
          ++ release.GetTagName ++ ")"⟩ = .ok created →
      CheckForUpdate p store
        = ⟨(forManifests p u (p.API.KVSet (forManifests p u store pre).store m.Id
              (strings.TrimPrefix release.GetTagName "v")).1 post).store,
            [Event.GetUserByUsername p.configuration.Username,
              Event.LogDebug "checking for plugin updates" [], Event.GetPlugins]
              ++ ((forManifests p u store pre).events
                ++ ([Event.LogDebug "checking for updates" ["id", m.Id],
                    Event.GetLatestRelease owner repo,
                    Event.LogDebug "need to update." ["id", m.Id],
                    Event.KVGet m.Id,
                    Event.LogDebug "we need to post an notification." ["id", m.Id],
                    Event.GetDirectChannel p.BotUserID u.Id,
                    Event.KVSet m.Id (strings.TrimPrefix release.GetTagName "v"),
                    Event.CreatePost ⟨p.BotUserID, channel.Id,
                      m.Name ++ " can be " ++ w ++ " to Version "
                        ++ strings.TrimPrefix release.GetTagName "v"
                        ++ ". [Press here to jump to the release](" ++ r ++ "/releases/tag/"
                        ++ release.GetTagName ++ ")"⟩]
                  ++ (forManifests p u (p.API.KVSet (forManifests p u store pre).store m.Id
                    (strings.TrimPrefix release.GetTagName "v")).1 post).events)),
            (forManifests p u (p.API.KVSet (forManifests p u store pre).store m.Id
              (strings.TrimPrefix release.GetTagName "v")).1 post).result⟩ ∧
      (p.API.KVSetError m.Id (strings.TrimPrefix release.GetTagName "v") = none →
        (p.API.KVSet (forManifests p u store pre).store m.Id
          (strings.TrimPrefix release.GetTagName "v")).1.get m.Id
          = some (strings.TrimPrefix release.GetTagName "v")) := by
  refine ⟨"updates", ?_⟩
  intro p store u pre post m r owner repo release currentVersion newVersion channel created
    hname huser hplug hpre hrepo hr hsplit hrel hcur hnew hgt hget hrec hchan hpost
  rw [← postMessage_words] at hpost ⊢
  have hstep := checkManifest_notifies p u (forManifests p u store pre).store m r owner repo
    release currentVersion newVersion channel created hrepo hr hsplit hrel hcur hnew hgt hget
    hrec hchan hpost
  refine ⟨?_, ?_⟩
  · rw [CheckForUpdate_at_next p store u pre post m hname huser hplug hpre (by rw [hstep]),
      hstep]
  · intro hok
    simp [API.KVSet, hok, Store.get_set]

/-- The scenario declared `1.2.0`, tag `v1.3.0`, no record, for a component that
comes after an untracked one and before a component that is up to date. -/
theorem CheckForUpdate_first_notification_witness :
    ∃ w : String,
      0 < (⟨1, 3, 0, [], []⟩ : semver.Version).Compare ⟨1, 2, 0, [], []⟩ ∧
      (forManifests (exPlugin (exAPI
          ([exUntracked "com.example.b"]
            ++ exManifest "com.example.a" "1.2.0" "https://github.com/o/r"
            :: [exManifest "com.example.c" "1.3.0" "https://github.com/o/c"]) "v1.3.0"))
        ⟨"uid-admin"⟩ [] [exUntracked "com.example.b"]).store.get "com.example.a"
        = none ∧
      CheckForUpdate (exPlugin (exAPI
          ([exUntracked "com.example.b"]
            ++ exManifest "com.example.a" "1.2.0" "https://github.com/o/r"
            :: [exManifest "com.example.c" "1.3.0" "https://github.com/o/c"]) "v1.3.0")) []
        = ⟨[("com.example.c", "1.3.0"), ("com.example.a", "1.3.0")],
            [Event.GetUserByUsername "admin",
              Event.LogDebug "checking for plugin updates" [], Event.GetPlugins,
              Event.LogDebug "checking for updates" ["id", "com.example.b"],
              Event.LogDebug "checking for updates" ["id", "com.example.a"],
              Event.GetLatestRelease "o" "r",
              Event.LogDebug "need to update." ["id", "com.example.a"],
              Event.KVGet "com.example.a",
              Event.LogDebug "we need to post an notification." ["id", "com.example.a"],
              Event.GetDirectChannel "bot" "uid-admin",
              Event.KVSet "com.example.a" "1.3.0",
              Event.CreatePost ⟨"bot", "bot__uid-admin",
                "com.example.a" ++ " can be " ++ w ++ " to Version " ++ "1.3.0"
                  ++ ". [Press here to jump to the release](" ++ "https://github.com/o/r"
                  ++ "/releases/tag/" ++ "v1.3.0" ++ ")"⟩,
              Event.LogDebug "checking for updates" ["id", "com.example.c"],
              Event.GetLatestRelease "o" "c",
              Event.LogDebug "need to update." ["id", "com.example.c"],
              Event.KVGet "com.example.c",
              Event.LogDebug "we need to post an notification." ["id", "com.example.c"],
              Event.GetDirectChannel "bot" "uid-admin",
              Event.KVSet "com.example.c" "1.3.0",
              Event.CreatePost ⟨"bot", "bot__uid-admin",
                "com.example.c can be updates to Version 1.3.0. [Press here to jump to the release](https://github.com/o/c/releases/tag/v1.3.0)"⟩],
            .nil⟩ :=
  CheckForUpdate_first_notification.elim fun w hw =>
    ⟨w, by decide, by decide,
      ((hw (exPlugin (exAPI
          ([exUntracked "com.example.b"]
            ++ exManifest "com.example.a" "1.2.0" "https://github.com/o/r"
            :: [exManifest "com.example.c" "1.3.0" "https://github.com/o/c"]) "v1.3.0")) []
        ⟨"uid-admin"⟩ [exUntracked "com.example.b"]
        [exManifest "com.example.c" "1.3.0" "https://github.com/o/c"]
        (exManifest "com.example.a" "1.2.0" "https://github.com/o/r") "https://github.com/o/r"
        "o" "r" ⟨some "v1.3.0"⟩ ⟨1, 2, 0, [], []⟩ ⟨1, 3, 0, [], []⟩ ⟨"bot__uid-admin"⟩
        ⟨"bot", "bot__uid-admin",
          "com.example.a" ++ " can be " ++ w ++ " to Version " ++ strings.TrimPrefix "v1.3.0" "v"
            ++ ". [Press here to jump to the release](" ++ "https://github.com/o/r"
            ++ "/releases/tag/" ++ "v1.3.0" ++ ")"⟩
        (by decide) rfl rfl (by decide) (by decide) (by decide) (by decide) rfl (by decide)
        (by decide) (by decide) rfl (by decide) rfl rfl).1).trans rfl⟩

/-- C2 fails as stated: component C has a well-formed reference, a successful
lookup, no record, declared `1.2.0` below the release `1.3.0`, and channel
resolution and delivery succeed, yet the cycle, which returns at the malformed
component before C, sends nothing and writes nothing for C. -/
theorem CheckForUpdate_update_lost_behind_failure :
    (exManifest "com.example.c" "1.2.0" "https://github.com/o/r").Props.lookup "repository"
      = some (.str "https://github.com/o/r") ∧
    strings.Split (strings.TrimPrefix (strings.TrimPrefix "https://github.com/o/r" "https://")
      "github.com/") '/' = ["o", "r"] ∧
    (semver.Parse (strings.TrimPrefix "v1.3.0" "v")).map
      (fun v => (semver.Parse "1.2.0").map (fun c => v.Compare c)) = some (some 1) ∧
    Store.get [] "com.example.c" = none ∧
    (CheckForUpdate (exPlugin (exAPI
        [exManifest "com.example.b" "1.0.0" "https://github.com/onlyowner",
          exManifest "com.example.c" "1.2.0" "https://github.com/o/r"] "v1.3.0")) []).result
      = .err "failed to extract username and repository from URL https://github.com/onlyowner" ∧
    notifications (CheckForUpdate (exPlugin (exAPI
        [exManifest "com.example.b" "1.0.0" "https://github.com/onlyowner",
          exManifest "com.example.c" "1.2.0" "https://github.com/o/r"] "v1.3.0")) []).events
      = [] ∧
    stateWrites (CheckForUpdate (exPlugin (exAPI
        [exManifest "com.example.b" "1.0.0" "https://github.com/onlyowner",
          exManifest "com.example.c" "1.2.0" "https://github.com/o/r"] "v1.3.0")) []).events
      = [] ∧
    (CheckForUpdate (exPlugin (exAPI
        [exManifest "com.example.b" "1.0.0" "https://github.com/onlyowner",
          exManifest "com.example.c" "1.2.0" "https://github.com/o/r"] "v1.3.0")) []).store
      = [] := by
  decide

/-- C7 (as the code has it): for a component with a well-formed repository
reference, a successful release lookup, a declared version and a tag that parse,
in a cycle whose loop reaches it (the recipient resolves, the inventory is
fetched, the components before it all continued), when the record read succeeds
and finds a record that parses and is not lower than the release version: the
cycle consists of the opening calls, the calls of the components before, then for
this component only debug lines, the release lookup and (unless the release is
below the declared version) the record read, with no notification and no state
write, and then the loop over the remaining components on the unchanged store. -/
theorem CheckForUpdate_skips_already_notified (p : Plugin) (store : Store) (u : User)
    (pre post : List Manifest) (m : Manifest) (r owner repo record : String)
    (release : RepositoryRelease) (currentVersion newVersion last : semver.Version)
    (hname : p.configuration.Username ≠ "")
    (huser : p.API.GetUserByUsername p.configuration.Username = .ok u)
    (hplug : p.API.GetPlugins = .ok (pre ++ m :: post))
    (hpre : (forManifests p u store pre).result = .nil)
    (hrepo : m.Props.lookup "repository" = some (.str r)) (hr : r ≠ "")
    (hsplit : strings.Split (strings.TrimPrefix (strings.TrimPrefix r "https://")
      "github.com/") '/' = [owner, repo])
    (hrel : p.API.GetLatestRelease owner repo = .ok release)
    (hcur : semver.Parse m.Version = some currentVersion)
    (hnew : semver.Parse (strings.TrimPrefix release.GetTagName "v") = some newVersion)
    (hget : p.API.KVGetError m.Id = none)
    (hrec : (forManifests p u store pre).store.get m.Id = some record)
    (hlast : semver.Parse record = some last)
    (hle : newVersion.Compare last ≤ 0) :
    CheckForUpdate p store
        = ⟨(forManifests p u (forManifests p u store pre).store post).store,
            [Event.GetUserByUsername p.configuration.Username,
              Event.LogDebug "checking for plugin updates" [], Event.GetPlugins]
              ++ ((forManifests p u store pre).events
                ++ ((if newVersion.LT currentVersion then
                      [Event.LogDebug "checking for updates" ["id", m.Id],
                        Event.GetLatestRelease owner repo,
                        Event.LogDebug "no need to update." ["id", m.Id]]
                    else
                      [Event.LogDebug "checking for updates" ["id", m.Id],
                        Event.GetLatestRelease owner repo,
                        Event.LogDebug "need to update." ["id", m.Id],
                        Event.KVGet m.Id,
                        Event.LogDebug
                          "no need to post an notification. We allready send one for this release."
                          ["id", m.Id]])
                  ++ (forManifests p u (forManifests p u store pre).store post).events)),
            (forManifests p u (forManifests p u store pre).store post).result⟩ ∧
      notifications (checkManifest p u (forManifests p u store pre).store m).events = [] ∧
      stateWrites (checkManifest p u (forManifests p u store pre).store m).events = [] := by
  have hstep := checkManifest_already_notified p u (forManifests p u store pre).store m r owner
    repo record release currentVersion newVersion last hrepo hr hsplit hrel hcur hnew hget hrec
    hlast hle
  refine ⟨?_, ?_, ?_⟩
  · rw [CheckForUpdate_at_next p store u pre post m hname huser hplug hpre (by rw [hstep]),
      hstep]
  · rw [hstep]
    split_ifs <;> simp
  · rw [hstep]
    split_ifs <;> simp

/-- The scenario declared `1.2.0`, tag `v1.3.0`, record `1.3.0`, for a component
that comes after an untracked one and before one that has no record yet. -/
theorem CheckForUpdate_skips_already_notified_witness :
    (forManifests (exPlugin (exAPI
        ([exUntracked "com.example.b"]
          ++ exManifest "com.example.a" "1.2.0" "https://github.com/o/r"
          :: [exManifest "com.example.c" "1.2.0" "https://github.com/o/c"]) "v1.3.0"))
      ⟨"uid-admin"⟩ [("com.example.a", "1.3.0")]
      [exUntracked "com.example.b"]).store.get "com.example.a" = some "1.3.0" ∧
    (⟨1, 3, 0, [], []⟩ : semver.Version).Compare ⟨1, 3, 0, [], []⟩ ≤ 0 ∧
    CheckForUpdate (exPlugin (exAPI
        ([exUntracked "com.example.b"]
          ++ exManifest "com.example.a" "1.2.0" "https://github.com/o/r"
          :: [exManifest "com.example.c" "1.2.0" "https://github.com/o/c"]) "v1.3.0"))
        [("com.example.a", "1.3.0")]
      = ⟨[("com.example.c", "1.3.0"), ("com.example.a", "1.3.0")],
          [Event.GetUserByUsername "admin",
            Event.LogDebug "checking for plugin updates" [], Event.GetPlugins,
            Event.LogDebug "checking for updates" ["id", "com.example.b"],
            Event.LogDebug "checking for updates" ["id", "com.example.a"],
            Event.GetLatestRelease "o" "r",
            Event.LogDebug "need to update." ["id", "com.example.a"],
            Event.KVGet "com.example.a",
            Event.LogDebug
              "no need to post an notification. We allready send one for this release."
              ["id", "com.example.a"],
            Event.LogDebug "checking for updates" ["id", "com.example.c"],
            Event.GetLatestRelease "o" "c",
            Event.LogDebug "need to update." ["id", "com.example.c"],
            Event.KVGet "com.example.c",
            Event.LogDebug "we need to post an notification." ["id", "com.example.c"],
            Event.GetDirectChannel "bot" "uid-admin",
            Event.KVSet "com.example.c" "1.3.0",
            Event.CreatePost ⟨"bot", "bot__uid-admin",
              "com.example.c can be updates to Version 1.3.0. [Press here to jump to the release](https://github.com/o/c/releases/tag/v1.3.0)"⟩],
          .nil⟩ :=
  ⟨by decide, by decide,
    ((CheckForUpdate_skips_already_notified (exPlugin (exAPI
        ([exUntracked "com.example.b"]
          ++ exManifest "com.example.a" "1.2.0" "https://github.com/o/r"
          :: [exManifest "com.example.c" "1.2.0" "https://github.com/o/c"]) "v1.3.0"))
      [("com.example.a", "1.3.0")] ⟨"uid-admin"⟩ [exUntracked "com.example.b"]
      [exManifest "com.example.c" "1.2.0" "https://github.com/o/c"]
      (exManifest "com.example.a" "1.2.0" "https://github.com/o/r") "https://github.com/o/r"
      "o" "r" "1.3.0" ⟨some "v1.3.0"⟩ ⟨1, 2, 0, [], []⟩ ⟨1, 3, 0, [], []⟩ ⟨1, 3, 0, [], []⟩
      (by decide) rfl rfl (by decide) (by decide) (by decide) (by decide) rfl (by decide)
      (by decide) rfl (by decide) (by decide) (by decide)).1).trans (by decide)⟩

/-- C7 fails as stated: component A has the record `1.3.0` and the release
`1.3.0` is not newer than it, but its declared version `v1.2.0` does not parse,
so the cycle panics at A (line 107) before the record is read and does not
continue with the next component C, which a cycle without A notifies. -/
theorem CheckForUpdate_panics_before_record_check :
    Store.get [("com.example.a", "1.3.0")] "com.example.a" = some "1.3.0" ∧
    (semver.Parse (strings.TrimPrefix "v1.3.0" "v")).map
      (fun v => (semver.Parse "1.3.0").map (fun l => v.Compare l)) = some (some 0) ∧
    semver.Parse "v1.2.0" = none ∧
    CheckForUpdate (exPlugin (exAPI
        [exManifest "com.example.a" "v1.2.0" "https://github.com/o/r",
          exManifest "com.example.c" "1.2.0" "https://github.com/o/c"] "v1.3.0"))
        [("com.example.a", "1.3.0")]
      = ⟨[("com.example.a", "1.3.0")],
          [Event.GetUserByUsername "admin",
            Event.LogDebug "checking for plugin updates" [], Event.GetPlugins,
            Event.LogDebug "checking for updates" ["id", "com.example.a"],
            Event.GetLatestRelease "o" "r"],
          .panic⟩ ∧
    notifications (CheckForUpdate (exPlugin (exAPI
        [exManifest "com.example.c" "1.2.0" "https://github.com/o/c"] "v1.3.0"))
        [("com.example.a", "1.3.0")]).events
      = [⟨"bot", "bot__uid-admin",
          "com.example.c can be updates to Version 1.3.0. [Press here to jump to the release](https://github.com/o/c/releases/tag/v1.3.0)"⟩] := by
  decide

end PluginUpdate
